import Mathlib

/-!
Workspace mounts: tracker store and dynamic resource router.

A shallow embedding of `pkg/reconciler/tenancy/workspacemounts`:

* `tracker_store.go`: the registry of tracked mount targets and the
  drift check `requeueIfChanged`;
* `workspace_controller_gvk.go`: the routing of a generic object event back
  to the owning workspace (`processGVK`) and the worker step around it;
* `workspace_reconcile_gvk_informers.go`: the reconcile step that sets up the
  watch of a mounted kind.

Conventions of the embedding.

* A Go pointer is an `Option` (`none` is `nil`); pointees are immutable values.
* A Go `map` is an association list with unique keys (`AList`) when the code
  writes it, and a plain list of pairs read with `List.lookup` when the code
  only reads it.
* The mutex of the store is not modelled: every operation runs sequentially.
* Calls to injected collaborators are recorded, in order, in a list of calls.
* A run-time panic (nil dereference, call of an unset function field) is an
  explicit outcome.
-/

namespace workspacemounts

/-! ## Data model -/

/-- The type `logicalcluster.Path`: a wrapper around the path string. -/
structure Path where
  value : String
deriving DecidableEq, Repr

/-- The method `Path.String()`. -/
def Path.String (p : Path) : String := p.value

/-- The type `v1.ObjectReference`. -/
structure ObjectReference where
  Kind : String
  Namespace : String
  Name : String
  UID : String
  APIVersion : String
  ResourceVersion : String
  FieldPath : String
deriving DecidableEq, Repr

/-- The type `tenancyv1alpha1.Workspace`, reduced to the metadata the package reads:
the object name and the annotations (a map that may be nil). -/
structure Workspace where
  Name : String
  Annotations : Option (List (String × String))
deriving DecidableEq, Repr

/-- The string type `tenancyv1alpha1.MountPhaseType`. -/
abbrev MountPhaseType := String

/-- A Go `error` value as the store sees it: a message, and whether
`apierrors.IsNotFound` holds of it. -/
structure Error where
  message : String
  notFound : Bool
deriving DecidableEq, Repr

/-- The test `err != nil && apierrors.IsNotFound(err)` on a possibly nil error. -/
def isNotFoundErr : Option Error → Bool
  | some err => err.notFound
  | none => false

/-- A dynamically typed value, as held by `map[string]interface{}`. -/
inductive Value where
  | null
  | bool (b : Bool)
  | number (n : Int)
  | string (s : String)
  | array (items : List Value)
  | object (fields : List (String × Value))

/-- The type `unstructured.Unstructured`: its `Object` document. -/
structure Unstructured where
  Object : List (String × Value)

/-- The type assertion `v.(map[string]interface{})` on the result of a map read
(`none` is the nil interface of a missing key). -/
def asObject : Option Value → Option (List (String × Value))
  | some (Value.object fields) => some fields
  | _ => none

/-- The type assertion `v.(string)` on the result of a map read. -/
def asString : Option Value → Option String
  | some (Value.string s) => some s
  | _ => none

/-! ## Tracker store (`tracker_store.go`) -/

/-- The struct `mountStoreEntry`. -/
structure mountStoreEntry where
  cluster : Path
  ref : Option ObjectReference
  workspace : Option Workspace
  lastSeenURL : String
  lastSeenPhase : MountPhaseType
deriving DecidableEq, Repr

/-- The zero value of `mountStoreEntry`, which a Go map read returns for a missing key. -/
def mountStoreEntry.zero : mountStoreEntry :=
  { cluster := ⟨""⟩, ref := none, workspace := none, lastSeenURL := "", lastSeenPhase := "" }

/-- The method `mountStoreEntry.Empty`. -/
def mountStoreEntry.Empty (m : mountStoreEntry) : Bool :=
  m.cluster.String == "" || m.ref.isNone || m.workspace.isNone

/-- The signature of the injected hook `requeueWorkspace`; `none` is a nil error. -/
abbrev RequeueHook := Path → Workspace → Option Error

/-- The signature of the injected accessor `getMountObject`: the returned pointer and error. -/
abbrev MountAccessor := Path → Option ObjectReference → Option Unstructured × Option Error

/-- The struct `mountStore`. The field `initOnce` is the done flag of the `sync.Once`; the two
function fields are nil until `init` binds them. -/
structure mountStore where
  mountTrackers : AList (fun _ : String => mountStoreEntry)
  initOnce : Bool
  initDone : Bool
  requeueWorkspace : Option RequeueHook
  getMountObject : Option MountAccessor

/-- The constructor `newMountsTrackerStore`. -/
def newMountsTrackerStore : mountStore :=
  { mountTrackers := ∅, initOnce := false, initDone := false,
    requeueWorkspace := none, getMountObject := none }

/-- The method `mountStore.init`: the body runs under `initOnce.Do`. -/
def mountStore.init (m : mountStore) (requeueWorkspace : RequeueHook)
    (getMountObject : MountAccessor) : mountStore :=
  if m.initOnce then m
  else
    { m with
      requeueWorkspace := some requeueWorkspace
      getMountObject := some getMountObject
      initDone := true
      initOnce := true }

/-- The function `key`. -/
def key (cluster : Path) (ref : ObjectReference) : String :=
  cluster.String ++ "/" ++ ref.Kind ++ "/" ++ ref.APIVersion ++ "/" ++ ref.Namespace ++ "/" ++ ref.Name

/-- A map read `m.mountTrackers[key]`: the stored entry, or the zero value. -/
def mountStore.get (m : mountStore) (key : String) : mountStoreEntry :=
  (m.mountTrackers.lookup key).getD mountStoreEntry.zero

/-- The method `mountStore.remove`. -/
def mountStore.remove (m : mountStore) (key : String) : mountStore :=
  { m with mountTrackers := m.mountTrackers.erase key }

/-- The method `mountStore.updateEntry`; `none` is the panic of `*entry.ref` on a nil reference. -/
def mountStore.updateEntry (m : mountStore) (entry : mountStoreEntry) : Option mountStore :=
  match entry.ref with
  | none => none
  | some ref => some { m with mountTrackers := m.mountTrackers.insert (key entry.cluster ref) entry }

/-- The method `mountStore.add`; `none` is the panic of `*ref` on a nil reference. -/
def mountStore.add (m : mountStore) (cluster : Path) (ref : Option ObjectReference)
    (workspace : Option Workspace) : Option mountStore :=
  match ref with
  | none => none
  | some r =>
    let k := key cluster r
    let v := m.get k
    if v.Empty then
      some { m with
        mountTrackers := m.mountTrackers.insert k
          { cluster := cluster, ref := ref, workspace := workspace,
            lastSeenURL := "", lastSeenPhase := "" } }
    else some m

/-- A call made by the store to one of its injected collaborators. -/
inductive Call where
  | getMountObject (cluster : Path) (ref : Option ObjectReference)
  | requeueWorkspace (cluster : Path) (workspace : Workspace)
deriving DecidableEq, Repr

/-- How one `requeueIfChanged` ends: it returns, leaving a store, or it panics. Both carry the
collaborator calls made, in order. -/
inductive Outcome where
  | returned (store : mountStore) (calls : List Call)
  | panicked (calls : List Call)

/-- The method `mountStore.requeueIfChanged`. -/
def mountStore.requeueIfChanged (m : mountStore) (key : String) : Outcome :=
  let current := m.get key
  if current.Empty then Outcome.returned m []
  else
    match m.getMountObject with
    | none => Outcome.panicked []
    | some getMountObject =>
      let fetched := getMountObject current.cluster current.ref
      let calls := [Call.getMountObject current.cluster current.ref]
      if isNotFoundErr fetched.2 then Outcome.returned (m.remove key) calls
      else
        match fetched.1 with
        | none => Outcome.panicked calls
        | some obj =>
          match asObject (obj.Object.lookup "status") with
          | none => Outcome.returned m calls
          | some status =>
            match asString (status.lookup "URL") with
            | none => Outcome.returned m calls
            | some statusURL =>
              match asString (status.lookup "phase") with
              | none => Outcome.returned m calls
              | some statusPhase =>
                if statusURL != current.lastSeenURL || statusPhase != current.lastSeenPhase then
                  let current := { current with lastSeenURL := statusURL, lastSeenPhase := statusPhase }
                  match current.workspace, m.requeueWorkspace with
                  | none, _ => Outcome.panicked calls
                  | some _, none => Outcome.panicked calls
                  | some workspace, some requeueWorkspace =>
                    let calls := calls ++ [Call.requeueWorkspace current.cluster workspace]
                    match requeueWorkspace current.cluster workspace with
                    | some _ => Outcome.returned m calls
                    | none =>
                      match m.updateEntry current with
                      | none => Outcome.panicked calls
                      | some m => Outcome.returned m calls
                else Outcome.returned m calls

/-! ## Dynamic resource router (`workspace_controller_gvk.go`) -/

/-- The type `schema.GroupVersionResource`. -/
structure GroupVersionResource where
  Group : String
  Version : String
  Resource : String
deriving DecidableEq, Repr

/-- The type `metav1.OwnerReference`. -/
structure OwnerReference where
  APIVersion : String
  Kind : String
  Name : String
  UID : String
  Controller : Option Bool
  BlockOwnerDeletion : Option Bool
deriving DecidableEq, Repr

/-- Cut a text at the first occurrence of a non-empty separator: the part before it and the part
after it, or `none` when the separator does not occur. -/
def cutFirst (sep : List Char) : List Char → Option (List Char × List Char)
  | [] => none
  | c :: cs =>
    if sep.isPrefixOf (c :: cs) then some ([], (c :: cs).drop sep.length)
    else
      match cutFirst sep cs with
      | some (before, after) => some (c :: before, after)
      | none => none

/-- Go's `strings.SplitN(s, sep, n)` on character lists, for a non-empty separator and `n ≥ 0`:
at most `n` parts, the last one holding the unsplit remainder. -/
def splitNChars (sep : List Char) : Nat → List Char → List (List Char)
  | 0, _ => []
  | 1, s => [s]
  | n + 2, s =>
    match cutFirst sep s with
    | none => [s]
    | some (before, after) => before :: splitNChars sep (n + 1) after

/-- Go's `strings.SplitN` for a non-empty separator. -/
def SplitN (s sep : String) (n : Nat) : List String :=
  (splitNChars sep.data n s.data).map String.mk

/-- Go's `strings.Count(s, ".")`. -/
def countDots (s : String) : Nat := s.data.count '.'

/-- The library function `schema.ParseResourceArg` of `k8s.io/apimachinery`, whose source is
outside the embedded files, after its documented behaviour; first result only (the code discards
the second). A text with at least two dots is cut at the first two into resource, version and
group, the inverse of the join in `enqueueForResource`; any other text gives nil. -/
def ParseResourceArg (arg : String) : Option GroupVersionResource :=
  if 2 ≤ countDots arg then
    match SplitN arg "." 3 with
    | [resource, version, group] => some { Group := group, Version := version, Resource := resource }
    | _ => none
  else none

/-- Modelled from the spec: the constant `tenancy.WorkspaceKind` is declared outside the embedded
files; the spec names the owner kind of a workspace as "Workspace". -/
def WorkspaceKind : String := "Workspace"

/-- What the router uses from outside the embedded files, taken as parameters: the two annotation
keys of the tenancy API package, and the library functions `Unstructured.GetAnnotations` (a map
that may be nil), `json.Unmarshal` into an owner reference, `logicalcluster.From` followed by
`String()`, and `kcpcache.ToClusterAwareKey`. -/
structure Deps where
  ExperimentalIsMountAnnotationKey : String
  ExperimentalWorkspaceOwnerAnnotationKey : String
  GetAnnotations : Unstructured → Option (List (String × String))
  jsonUnmarshal : String → Except String OwnerReference
  logicalclusterFrom : Unstructured → String
  ToClusterAwareKey : String → String → String → String

/-- An item of an informer cache, an `interface{}`: an `*unstructured.Unstructured`, or a value of
another dynamic type. -/
inductive CachedItem where
  | unstructured (u : Unstructured)
  | other (typeName : String)

/-- The three results of `Indexer.GetByKey`. -/
structure GetByKeyResult where
  item : CachedItem
  found : Bool
  err : Option String

/-- The informer of one resource, seen through `Informer().GetIndexer().GetByKey`. -/
structure Informer where
  GetByKey : String → GetByKeyResult

/-- The struct `Controller`, reduced to the informer factory method
`discoveringDynamicSharedInformerFactory.ForResource`; its queues appear as effects. -/
structure Controller where
  ForResource : GroupVersionResource → Except String Informer

/-- An effect of the router on its collaborators. -/
inductive Effect where
  | forResource (gvr : GroupVersionResource)
  | getByKey (gvr : GroupVersionResource) (key : String)
  | queueAdd (key : String)
  | gvrQueueAdd (key : String)
  | gvrQueueDone (key : String)
  | gvrQueueAddRateLimited (key : String)
  | gvrQueueForget (key : String)
deriving DecidableEq, Repr

/-- The errors `processGVK` returns, by cause. -/
inductive ProcessError where
  | informer (gvr : GroupVersionResource) (cause : String)
  | unmarshalOwner (cause : String)
  | ownerNotWorkspace (kind : String)
deriving DecidableEq, Repr

/-- The result of `processGVK`: the returned error (`none` is nil) and the effects, in order. -/
structure GVKResult where
  err : Option ProcessError
  effects : List Effect
deriving DecidableEq, Repr

/-- The method `Controller.processGVK`. -/
def Controller.processGVK (d : Deps) (c : Controller) (key : String) : GVKResult :=
  match SplitN key "::" 2 with
  | [gvrPart, key] =>
    match ParseResourceArg gvrPart with
    | none => ⟨none, []⟩
    | some gvr =>
      match c.ForResource gvr with
      | Except.error err => ⟨some (ProcessError.informer gvr err), [Effect.forResource gvr]⟩
      | Except.ok inf =>
        let res := inf.GetByKey key
        let effects := [Effect.forResource gvr, Effect.getByKey gvr key]
        if res.err.isSome then ⟨none, effects⟩
        else if !res.found then ⟨none, effects⟩
        else
          match res.item with
          | CachedItem.other _ => ⟨none, effects⟩
          | CachedItem.unstructured u =>
            match d.GetAnnotations u with
            | none => ⟨none, effects⟩
            | some annotations =>
              if annotations.lookup d.ExperimentalIsMountAnnotationKey != some "true" then
                ⟨none, effects⟩
              else
                match annotations.lookup d.ExperimentalWorkspaceOwnerAnnotationKey with
                | none => ⟨none, effects⟩
                | some ownerRaw =>
                  match d.jsonUnmarshal ownerRaw with
                  | Except.error err => ⟨some (ProcessError.unmarshalOwner err), effects⟩
                  | Except.ok ownerSchema =>
                    if ownerSchema.Kind != WorkspaceKind then
                      ⟨some (ProcessError.ownerNotWorkspace ownerSchema.Kind), effects⟩
                    else
                      let keyWorkspace := d.ToClusterAwareKey (d.logicalclusterFrom u) "" ownerSchema.Name
                      ⟨none, effects ++ [Effect.queueAdd keyWorkspace]⟩
  | _ => ⟨none, []⟩

/-- The method `Controller.enqueueForResource`: the effect on the resource queue. The library
function `kcpcache.MetaClusterNamespaceKeyFunc` is a parameter; when it fails nothing is added. -/
def enqueueForResource (MetaClusterNamespaceKeyFunc : CachedItem → Except String String)
    (gvr : GroupVersionResource) (obj : CachedItem) : List Effect :=
  let queueKey := String.intercalate "." [gvr.Resource, gvr.Version, gvr.Group]
  match MetaClusterNamespaceKeyFunc obj with
  | Except.error _ => []
  | Except.ok key => [Effect.gvrQueueAdd (queueKey ++ "::" ++ key)]

/-- The method `Controller.processNextGVKWorkItem`, given the two results `k`, `quit` of
`c.gvrQueue.Get()`: the returned boolean and the effects, in order. The deferred
`c.gvrQueue.Done(key)` runs last. -/
def Controller.processNextGVKWorkItem (d : Deps) (c : Controller) (k : String) (quit : Bool) :
    Bool × List Effect :=
  if quit then (false, [])
  else
    let res := c.processGVK d k
    match res.err with
    | some _ => (true, res.effects ++ [Effect.gvrQueueAddRateLimited k] ++ [Effect.gvrQueueDone k])
    | none => (true, res.effects ++ [Effect.gvrQueueForget k] ++ [Effect.gvrQueueDone k])

/-! ## Dynamic watch manager (`workspace_reconcile_gvk_informers.go`) -/

/-- The type `schema.GroupVersionKind`. -/
structure GroupVersionKind where
  Group : String
  Version : String
  Kind : String
deriving DecidableEq, Repr

/-- Modelled from the spec: the type `tenancyv1alpha1.MountSpec` is declared outside the embedded
files; the spec's mount annotation carries the reference of the mounted object. The reference is
a pointer, nil when the annotation text gives none (as the text of an empty JSON object). -/
structure MountSpec where
  Reference : Option ObjectReference
deriving DecidableEq, Repr

/-- Modelled from the spec: the type `tenancyv1alpha1.Mount` is declared outside the embedded
files; of it `reconcile` reads `MountSpec.Reference` only. -/
structure Mount where
  MountSpec : MountSpec
deriving DecidableEq, Repr

/-- Modelled from the spec: the type `reconcileStatus` and its two constants are declared outside
the embedded files; the spec gives the enumeration as continue and stop-and-requeue. -/
inductive reconcileStatus where
  | reconcileStatusContinue
  | reconcileStatusStopAndRequeue
deriving DecidableEq, Repr

/-- What `reconcile` uses from outside the embedded files, taken as parameters: the key of the
mount annotation, the parser `ParseTenancyMountAnnotation` (a pointer and an error), and the
library method `ObjectReference.GroupVersionKind`. -/
structure ReconcileDeps where
  ExperimentalWorkspaceMountAnnotationKey : String
  ParseTenancyMountAnnotation : String → Option Mount × Option Error
  GroupVersionKind : ObjectReference → GroupVersionKind

/-- The struct `gvkInformersReconciler`, its two function fields bound. -/
structure gvkInformersReconciler where
  setupGVKInformer : GroupVersionKind → Option Error
  requeueWorkspace : RequeueHook

/-- How one `reconcile` ends: it returns a status and an error, or it panics. Both carry the
calls made to `setupGVKInformer`, in order, and the workspace as the call leaves it. -/
inductive ReconcileOutcome where
  | returned (status : reconcileStatus) (err : Option Error)
      (setupCalls : List GroupVersionKind) (workspace : Workspace)
  | panicked (setupCalls : List GroupVersionKind) (workspace : Workspace)
deriving DecidableEq, Repr

/-- The first statement of `reconcile`: nil annotations are replaced by an empty map. -/
def Workspace.withAnnotations (workspace : Workspace) : Workspace :=
  if workspace.Annotations.isNone then { workspace with Annotations := some [] } else workspace

/-- The method `gvkInformersReconciler.reconcile`. -/
def gvkInformersReconciler.reconcile (d : ReconcileDeps) (r : gvkInformersReconciler)
    (workspace : Workspace) : ReconcileOutcome :=
  let workspace := workspace.withAnnotations
  match (workspace.Annotations.getD []).lookup d.ExperimentalWorkspaceMountAnnotationKey with
  | none => ReconcileOutcome.returned reconcileStatus.reconcileStatusContinue none [] workspace
  | some v =>
    match d.ParseTenancyMountAnnotation v with
    | (_, some err) =>
      ReconcileOutcome.returned reconcileStatus.reconcileStatusStopAndRequeue (some err) []
        workspace
    | (none, none) =>
      ReconcileOutcome.returned reconcileStatus.reconcileStatusContinue none [] workspace
    | (some mount, none) =>
      match mount.MountSpec.Reference with
      | none => ReconcileOutcome.panicked [] workspace
      | some ref =>
        let gvk := d.GroupVersionKind ref
        match r.setupGVKInformer gvk with
        | some err =>
          ReconcileOutcome.returned reconcileStatus.reconcileStatusStopAndRequeue (some err)
            [gvk] workspace
        | none =>
          ReconcileOutcome.returned reconcileStatus.reconcileStatusContinue none [gvk] workspace

/-! ## Sequences of store operations -/

/-- An operation on the store. -/
inductive Op where
  | init (requeueWorkspace : RequeueHook) (getMountObject : MountAccessor)
  | add (cluster : Path) (ref : Option ObjectReference) (workspace : Option Workspace)
  | remove (key : String)
  | requeueIfChanged (key : String)

/-- The store after one operation. An operation that panics leaves the store as it was: every
panic of `add` and of `requeueIfChanged` comes before their write. -/
def mountStore.apply (m : mountStore) : Op → mountStore
  | Op.init requeueWorkspace getMountObject => m.init requeueWorkspace getMountObject
  | Op.add cluster ref workspace => (m.add cluster ref workspace).getD m
  | Op.remove key => m.remove key
  | Op.requeueIfChanged key =>
    match m.requeueIfChanged key with
    | Outcome.returned store _ => store
    | Outcome.panicked _ => m

/-- The store after a sequence of operations, run in order. -/
def runOps (m : mountStore) (ops : List Op) : mountStore :=
  ops.foldl mountStore.apply m

/-- Whether an operation is a call of `init`. -/
def Op.isInit : Op → Bool
  | Op.init _ _ => true
  | _ => false

/-- The registry key invariant: every stored entry has a reference, and the key it is stored under
is the key of its own cluster and reference. -/
def KeyInvariant (m : mountStore) : Prop :=
  ∀ k e, m.mountTrackers.lookup k = some e → ∃ r, e.ref = some r ∧ k = key e.cluster r

/-- The store `m2` has the same one-shot flag, readiness flag and collaborators as `m`. -/
def SameBinding (m m2 : mountStore) : Prop :=
  m2.initOnce = m.initOnce ∧ m2.initDone = m.initDone ∧
    m2.requeueWorkspace = m.requeueWorkspace ∧ m2.getMountObject = m.getMountObject

/-- The collaborator calls made during a `requeueIfChanged`. -/
def Outcome.calls : Outcome → List Call
  | Outcome.returned _ calls => calls
  | Outcome.panicked calls => calls

/-! ## Sample values -/

/-- A sample mount target reference. -/
def sampleRef : ObjectReference :=
  { Kind := "KubeCluster", Namespace := "default", Name := "proxy", UID := "",
    APIVersion := "targets.contrib.kcp.io/v1alpha1", ResourceVersion := "", FieldPath := "" }

/-- A sample owning workspace. -/
def sampleWorkspace : Workspace := { Name := "w1", Annotations := none }

/-- Another workspace object. -/
def otherWorkspace : Workspace := { Name := "w2", Annotations := none }

/-- A sample tracked entry: last seen URL "A", phase "Pending". -/
def sampleEntry : mountStoreEntry :=
  { cluster := ⟨"root:org"⟩, ref := some sampleRef, workspace := some sampleWorkspace,
    lastSeenURL := "A", lastSeenPhase := "Pending" }

/-- A mount object whose status carries the given URL and phase. -/
def statusObject (url phase : String) : Unstructured :=
  { Object := [("status", Value.object [("URL", Value.string url), ("phase", Value.string phase)])] }

/-- An accessor that answers every fetch with the same pointer and error. -/
def fixedAccessor (obj : Option Unstructured) (err : Option Error) : MountAccessor :=
  fun _ _ => (obj, err)

/-- A requeue hook that answers every call with the same error (`none` is success). -/
def fixedHook (err : Option Error) : RequeueHook := fun _ _ => err

/-- An initialised store tracking `sampleEntry` under its own key, with the given collaborators. -/
def sampleStore (requeueWorkspace : RequeueHook) (getMountObject : MountAccessor) : mountStore :=
  { mountTrackers := (∅ : AList (fun _ : String => mountStoreEntry)).insert
      (key sampleEntry.cluster sampleRef) sampleEntry
    initOnce := true
    initDone := true
    requeueWorkspace := some requeueWorkspace
    getMountObject := some getMountObject }

/-- The annotations of a sample object, read from `metadata.annotations`; values that are not
strings are left out. -/
def sampleGetAnnotations (u : Unstructured) : Option (List (String × String)) :=
  match asObject (u.Object.lookup "metadata") with
  | none => none
  | some metadata =>
    match asObject (metadata.lookup "annotations") with
    | none => none
    | some annotations =>
      some (annotations.filterMap fun kv => (asString (some kv.2)).map fun v => (kv.1, v))

/-- A sample decoder of owner references: it knows the two texts used in the samples. -/
def sampleUnmarshal (raw : String) : Except String OwnerReference :=
  if raw = "\x7b\"kind\":\"Workspace\",\"name\":\"w1\"\x7d" then
    Except.ok { APIVersion := "", Kind := "Workspace", Name := "w1", UID := "",
                Controller := none, BlockOwnerDeletion := none }
  else if raw = "\x7b\"kind\":\"Pod\",\"name\":\"p1\"\x7d" then
    Except.ok { APIVersion := "", Kind := "Pod", Name := "p1", UID := "",
                Controller := none, BlockOwnerDeletion := none }
  else Except.error "invalid character"

/-- Sample values for the parameters of the router. -/
def sampleDeps : Deps :=
  { ExperimentalIsMountAnnotationKey := "experimental.tenancy.kcp.io/is-mount"
    ExperimentalWorkspaceOwnerAnnotationKey := "experimental.tenancy.kcp.io/owner"
    GetAnnotations := sampleGetAnnotations
    jsonUnmarshal := sampleUnmarshal
    logicalclusterFrom := fun u =>
      (((sampleGetAnnotations u).getD []).lookup "kcp.io/cluster").getD ""
    ToClusterAwareKey := fun cluster ns name =>
      (if cluster = "" then "" else cluster ++ "|") ++
        (if ns = "" then "" else ns ++ "/") ++ name }

/-- A sample object of cluster "root:org" with the given marker value, owned by workspace "w1". -/
def sampleMountObject (marker : String) : Unstructured :=
  { Object := [("metadata", Value.object [("annotations", Value.object
      [("kcp.io/cluster", Value.string "root:org"),
       ("experimental.tenancy.kcp.io/is-mount", Value.string marker),
       ("experimental.tenancy.kcp.io/owner",
          Value.string "\x7b\"kind\":\"Workspace\",\"name\":\"w1\"\x7d")])])] }

/-- The resource of the sample objects. -/
def sampleGVR : GroupVersionResource :=
  { Group := "targets.contrib.kcp.io", Version := "v1alpha1", Resource := "kubeclusters" }

/-- A sample controller whose informer cache holds the given object under "root:org|default/proxy". -/
def sampleController (u : Unstructured) : Controller :=
  { ForResource := fun gvr =>
      if gvr = sampleGVR then
        Except.ok { GetByKey := fun k =>
          if k = "root:org|default/proxy" then
            { item := CachedItem.unstructured u, found := true, err := none }
          else { item := CachedItem.other "<nil>", found := false, err := none } }
      else Except.error "no matches for resource" }

/-- Whether an effect is an operation on the resource queue `gvrQueue`. -/
def Effect.onGvrQueue : Effect → Bool
  | Effect.gvrQueueAdd _ => true
  | Effect.gvrQueueDone _ => true
  | Effect.gvrQueueAddRateLimited _ => true
  | Effect.gvrQueueForget _ => true
  | _ => false

/-- A controller whose informer for one resource caches one object under one key; any other
resource has no informer. -/
def singleObjectController (gvr : GroupVersionResource) (objKey : String) (u : Unstructured) :
    Controller :=
  { ForResource := fun g =>
      if g = gvr then
        Except.ok { GetByKey := fun k =>
          if k = objKey then { item := CachedItem.unstructured u, found := true, err := none }
          else { item := CachedItem.other "<nil>", found := false, err := none } }
      else Except.error "no matches for resource" }

/-- A marked sample object of cluster "root:org" whose owner annotation is not JSON. -/
def sampleBadOwnerObject : Unstructured :=
  { Object := [("metadata", Value.object [("annotations", Value.object
      [("kcp.io/cluster", Value.string "root:org"),
       ("experimental.tenancy.kcp.io/is-mount", Value.string "true"),
       ("experimental.tenancy.kcp.io/owner", Value.string "not json")])])] }

/-- Sample values for the parameters of `reconcile`: the parser knows one annotation text that
refers to `sampleRef`, and the empty JSON object, which decodes to a mount with no reference. -/
def sampleReconcileDeps : ReconcileDeps :=
  { ExperimentalWorkspaceMountAnnotationKey := "experimental.tenancy.kcp.io/mount"
    ParseTenancyMountAnnotation := fun v =>
      if v = "sample-mount" then (some { MountSpec := { Reference := some sampleRef } }, none)
      else if v = "\x7b\x7d" then (some { MountSpec := { Reference := none } }, none)
      else (none, some { message := "invalid mount annotation", notFound := false })
    GroupVersionKind := fun ref =>
      { Group := "targets.contrib.kcp.io", Version := "v1alpha1", Kind := ref.Kind } }

/-- A sample workspace carrying the mount annotation with the given text. -/
def mountedWorkspace (v : String) : Workspace :=
  { Name := "w1", Annotations := some [("experimental.tenancy.kcp.io/mount", v)] }

/-- A reconciler whose `setupGVKInformer` answers every call with the same error. -/
def fixedReconciler (err : Option Error) : gvkInformersReconciler :=
  { setupGVKInformer := fun _ => err, requeueWorkspace := fixedHook none }

/-! ## Shared lemmas -/

theorem get_of_lookup {m : mountStore} {k : String} {e : mountStoreEntry}
    (h : m.mountTrackers.lookup k = some e) : m.get k = e := by
  simp [mountStore.get, h]

theorem get_of_lookup_none {m : mountStore} {k : String}
    (h : m.mountTrackers.lookup k = none) : m.get k = mountStoreEntry.zero := by
  simp [mountStore.get, h]

theorem zero_Empty : mountStoreEntry.zero.Empty = true := by
  simp [mountStoreEntry.zero, mountStoreEntry.Empty, Path.String]

theorem sampleStore_lookup (rq : RequeueHook) (g : MountAccessor) :
    (sampleStore rq g).mountTrackers.lookup (key sampleEntry.cluster sampleRef) = some sampleEntry :=
  AList.lookup_insert _

theorem sampleEntry_not_Empty : sampleEntry.Empty = false := by decide

/-- The drift check on a tracked entry whose fetched status differs from the snapshot: the hook is
called once, and its answer decides whether the snapshot is stored. -/
theorem requeueIfChanged_of_changed {m : mountStore} {k : String} {e : mountStoreEntry}
    {r : ObjectReference} {w : Workspace} {get : MountAccessor} {rq : RequeueHook}
    {obj : Unstructured} {err : Option Error} {status : List (String × Value)} {u p : String}
    (hget : m.getMountObject = some get) (hrq : m.requeueWorkspace = some rq)
    (hk : m.mountTrackers.lookup k = some e)
    (href : e.ref = some r) (hw : e.workspace = some w) (hne : e.Empty = false)
    (hfetch : get e.cluster e.ref = (some obj, err)) (herr : isNotFoundErr err = false)
    (hst : obj.Object.lookup "status" = some (Value.object status))
    (hu : status.lookup "URL" = some (Value.string u))
    (hp : status.lookup "phase" = some (Value.string p))
    (hdiff : u ≠ e.lastSeenURL ∨ p ≠ e.lastSeenPhase) :
    m.requeueIfChanged k =
      match rq e.cluster w with
      | some _ =>
        Outcome.returned m
          [Call.getMountObject e.cluster e.ref, Call.requeueWorkspace e.cluster w]
      | none =>
        Outcome.returned
          { m with mountTrackers := (m.mountTrackers.insert (key e.cluster r)
              { e with lastSeenURL := u, lastSeenPhase := p }) }
          [Call.getMountObject e.cluster e.ref, Call.requeueWorkspace e.cluster w] := by
  have hcur := get_of_lookup hk
  have hfetch2 := hfetch
  rw [href] at hfetch2
  unfold mountStore.requeueIfChanged
  cases hans : rq e.cluster w <;>
    simp [hcur, hne, hget, hfetch2, herr, hst, hu, hp, asObject, asString, hdiff, hw, hrq,
      mountStore.updateEntry, href, hans]

/-- The drift check on a tracked entry whose fetched status equals the snapshot: the accessor call
only, the store unchanged. -/
theorem requeueIfChanged_of_same {m : mountStore} {k : String} {e : mountStoreEntry}
    {get : MountAccessor} {obj : Unstructured} {err : Option Error}
    {status : List (String × Value)}
    (hget : m.getMountObject = some get)
    (hk : m.mountTrackers.lookup k = some e) (hne : e.Empty = false)
    (hfetch : get e.cluster e.ref = (some obj, err)) (herr : isNotFoundErr err = false)
    (hst : obj.Object.lookup "status" = some (Value.object status))
    (hu : status.lookup "URL" = some (Value.string e.lastSeenURL))
    (hp : status.lookup "phase" = some (Value.string e.lastSeenPhase)) :
    m.requeueIfChanged k = Outcome.returned m [Call.getMountObject e.cluster e.ref] := by
  have hcur := get_of_lookup hk
  unfold mountStore.requeueIfChanged
  simp [hcur, hne, hget, hfetch, herr, hst, hu, hp, asObject, asString]

/-! ## Tracker store: the emptiness test -/

/-- C4: an entry is empty exactly when its cluster string is empty, or its reference is nil, or
its workspace is nil. -/
theorem Empty_iff (e : mountStoreEntry) :
    e.Empty = true ↔ e.cluster.String = "" ∨ e.ref = none ∨ e.workspace = none := by
  simp [mountStoreEntry.Empty, or_assoc]

/-! ## Tracker store: the drift check -/

/-- C7: on a key whose entry is absent or empty, `requeueIfChanged` returns at once: no accessor
call, no hook call, the store unchanged; this is the case of every key just removed. -/
theorem requeueIfChanged_absent_or_empty (m : mountStore) (k : String) :
    ((m.mountTrackers.lookup k = none ∨
        ∃ e, m.mountTrackers.lookup k = some e ∧ e.Empty = true) →
      m.requeueIfChanged k = Outcome.returned m []) ∧
    (m.remove k).requeueIfChanged k = Outcome.returned (m.remove k) [] := by
  have key_fact : ∀ m0 : mountStore, (m0.get k).Empty = true →
      m0.requeueIfChanged k = Outcome.returned m0 [] := by
    intro m0 h0
    simp [mountStore.requeueIfChanged, h0]
  refine ⟨?_, ?_⟩
  · rintro (h | ⟨e, h, he⟩)
    · exact key_fact m (by rw [get_of_lookup_none h]; exact zero_Empty)
    · exact key_fact m (by rw [get_of_lookup h]; exact he)
  · apply key_fact
    have h : (m.remove k).mountTrackers.lookup k = none := AList.lookup_erase k _
    rw [get_of_lookup_none h]
    exact zero_Empty

/-- Witness for C7: the sample store after `remove` of the tracked key, and the same key. -/
theorem requeueIfChanged_absent_or_empty_witness :
    ((sampleStore (fixedHook none) (fixedAccessor none none)).remove
        (key sampleEntry.cluster sampleRef)).requeueIfChanged (key sampleEntry.cluster sampleRef)
      = Outcome.returned ((sampleStore (fixedHook none) (fixedAccessor none none)).remove
        (key sampleEntry.cluster sampleRef)) [] :=
  (requeueIfChanged_absent_or_empty
    ((sampleStore (fixedHook none) (fixedAccessor none none)).remove
      (key sampleEntry.cluster sampleRef))
    (key sampleEntry.cluster sampleRef)).1 (Or.inl (AList.lookup_erase _ _))

/-- C8: when the fetch succeeds but the object's status is not a map, or holds no string `URL`,
or no string `phase`, `requeueIfChanged` makes the accessor call only and leaves the store
unchanged. -/
theorem requeueIfChanged_malformed_status (m : mountStore) (k : String) (e : mountStoreEntry)
    (get : MountAccessor) (obj : Unstructured)
    (hget : m.getMountObject = some get)
    (hk : m.mountTrackers.lookup k = some e)
    (hne : e.Empty = false)
    (hfetch : get e.cluster e.ref = (some obj, none))
    (hbad : (∀ fields, obj.Object.lookup "status" ≠ some (Value.object fields)) ∨
      ∃ status, obj.Object.lookup "status" = some (Value.object status) ∧
        ((∀ s, status.lookup "URL" ≠ some (Value.string s)) ∨
          (∀ s, status.lookup "phase" ≠ some (Value.string s)))) :
    m.requeueIfChanged k = Outcome.returned m [Call.getMountObject e.cluster e.ref] := by
  have hcur := get_of_lookup hk
  have asObject_none : ∀ v : Option Value, (∀ fields, v ≠ some (Value.object fields)) →
      asObject v = none := by
    intro v hv
    match v, hv with
    | none, _ => rfl
    | some (Value.object fields), hv => exact absurd rfl (hv fields)
    | some Value.null, _ => rfl
    | some (Value.bool _), _ => rfl
    | some (Value.number _), _ => rfl
    | some (Value.string _), _ => rfl
    | some (Value.array _), _ => rfl
  have asString_none : ∀ v : Option Value, (∀ s, v ≠ some (Value.string s)) →
      asString v = none := by
    intro v hv
    match v, hv with
    | none, _ => rfl
    | some (Value.string s), hv => exact absurd rfl (hv s)
    | some Value.null, _ => rfl
    | some (Value.bool _), _ => rfl
    | some (Value.number _), _ => rfl
    | some (Value.object _), _ => rfl
    | some (Value.array _), _ => rfl
  rcases hbad with hst | ⟨status, hst, hurl | hph⟩
  · simp [mountStore.requeueIfChanged, hcur, hne, hget, hfetch, isNotFoundErr,
      asObject_none _ hst]
  · simp [mountStore.requeueIfChanged, hcur, hne, hget, hfetch, isNotFoundErr, hst, asObject,
      asString_none _ hurl]
  · cases hu : asString (status.lookup "URL") with
    | none =>
      simp [mountStore.requeueIfChanged, hcur, hne, hget, hfetch, isNotFoundErr, hst, asObject, hu]
    | some u =>
      simp [mountStore.requeueIfChanged, hcur, hne, hget, hfetch, isNotFoundErr, hst, asObject, hu,
        asString_none _ hph]

/-- Witness for C8: the fetched object has a status with a URL but no phase. -/
theorem requeueIfChanged_malformed_status_witness :
    (sampleStore (fixedHook none)
        (fixedAccessor (some ⟨[("status", Value.object [("URL", Value.string "B")])]⟩)
          none)).requeueIfChanged (key sampleEntry.cluster sampleRef)
      = Outcome.returned
          (sampleStore (fixedHook none)
            (fixedAccessor (some ⟨[("status", Value.object [("URL", Value.string "B")])]⟩) none))
          [Call.getMountObject sampleEntry.cluster sampleEntry.ref] :=
  requeueIfChanged_malformed_status
    (sampleStore (fixedHook none)
      (fixedAccessor (some ⟨[("status", Value.object [("URL", Value.string "B")])]⟩) none))
    (key sampleEntry.cluster sampleRef) sampleEntry
    (fixedAccessor (some ⟨[("status", Value.object [("URL", Value.string "B")])]⟩) none)
    ⟨[("status", Value.object [("URL", Value.string "B")])]⟩ rfl
    (sampleStore_lookup _ _) sampleEntry_not_Empty rfl
    (Or.inr ⟨[("URL", Value.string "B")], by rfl, Or.inr (by intro s h; simp [List.lookup] at h)⟩)

/-- C6: when the accessor reports not-found, `requeueIfChanged` makes the accessor call only and
deletes the entry under the given key: that key becomes absent and every other key reads as before. -/
theorem requeueIfChanged_not_found (m : mountStore) (k : String) (e : mountStoreEntry)
    (get : MountAccessor)
    (hget : m.getMountObject = some get)
    (hk : m.mountTrackers.lookup k = some e)
    (hne : e.Empty = false)
    (hfetch : isNotFoundErr (get e.cluster e.ref).2 = true) :
    m.requeueIfChanged k
        = Outcome.returned { m with mountTrackers := m.mountTrackers.erase k }
            [Call.getMountObject e.cluster e.ref] ∧
      (m.mountTrackers.erase k).lookup k = none ∧
      ∀ k2, k2 ≠ k → (m.mountTrackers.erase k).lookup k2 = m.mountTrackers.lookup k2 := by
  have hcur := get_of_lookup hk
  refine ⟨?_, AList.lookup_erase k _, fun k2 h2 => AList.lookup_erase_ne h2⟩
  simp [mountStore.requeueIfChanged, hcur, hne, hget, hfetch, mountStore.remove]

/-- Witness for C6: the accessor answers nil with a not-found error. -/
theorem requeueIfChanged_not_found_witness :
    (sampleStore (fixedHook none)
        (fixedAccessor none (some ⟨"not found", true⟩))).requeueIfChanged
        (key sampleEntry.cluster sampleRef)
      = Outcome.returned
          { sampleStore (fixedHook none) (fixedAccessor none (some ⟨"not found", true⟩)) with
            mountTrackers :=
              (sampleStore (fixedHook none)
                (fixedAccessor none (some ⟨"not found", true⟩))).mountTrackers.erase
                (key sampleEntry.cluster sampleRef) }
          [Call.getMountObject sampleEntry.cluster sampleEntry.ref] :=
  (requeueIfChanged_not_found
    (sampleStore (fixedHook none) (fixedAccessor none (some ⟨"not found", true⟩)))
    (key sampleEntry.cluster sampleRef) sampleEntry
    (fixedAccessor none (some ⟨"not found", true⟩)) rfl (sampleStore_lookup _ _)
    sampleEntry_not_Empty rfl).1

/-- C5: the behaviour of the code on a fetch error other than not-found. With a nil object
beside the error, `requeueIfChanged` panics on the read of `obj.Object` after the accessor call;
with an object beside the error whose status differs from the snapshot, it goes on to call the
requeue hook and to update the entry. -/
theorem requeueIfChanged_other_error_not_ignored :
    (sampleStore (fixedHook none)
        (fixedAccessor none (some ⟨"internal error", false⟩))).requeueIfChanged
        (key sampleEntry.cluster sampleRef)
      = Outcome.panicked [Call.getMountObject sampleEntry.cluster sampleEntry.ref] ∧
    ((sampleStore (fixedHook none)
        (fixedAccessor (some (statusObject "B" "Pending"))
          (some ⟨"internal error", false⟩))).requeueIfChanged
        (key sampleEntry.cluster sampleRef)).calls
      = [Call.getMountObject sampleEntry.cluster sampleEntry.ref,
         Call.requeueWorkspace sampleEntry.cluster sampleWorkspace] := by
  constructor
  · rfl
  · rfl

/-- C1: a tracked non-empty entry stored under its own key, a fetch whose status holds string URL
`u` and phase `p` different from the snapshot, and a hook that succeeds: the drift check calls the
accessor, then the hook once for the entry's cluster and workspace, and stores the entry with the
snapshot `u`, `p` under the key; run again on the resulting store with the same fetch, it calls
the accessor only and returns that store unchanged. -/
theorem requeueIfChanged_requeues_once (m : mountStore) (k : String) (e : mountStoreEntry)
    (r : ObjectReference) (w : Workspace) (get : MountAccessor) (rq : RequeueHook)
    (obj : Unstructured) (err : Option Error) (status : List (String × Value)) (u p : String)
    (hget : m.getMountObject = some get) (hrq : m.requeueWorkspace = some rq)
    (hk : m.mountTrackers.lookup k = some e)
    (href : e.ref = some r) (hw : e.workspace = some w) (hne : e.Empty = false)
    (hkey : k = key e.cluster r)
    (hfetch : get e.cluster e.ref = (some obj, err)) (herr : isNotFoundErr err = false)
    (hst : obj.Object.lookup "status" = some (Value.object status))
    (hu : status.lookup "URL" = some (Value.string u))
    (hp : status.lookup "phase" = some (Value.string p))
    (hdiff : (u, p) ≠ (e.lastSeenURL, e.lastSeenPhase))
    (hok : rq e.cluster w = none) :
    ∃ m2 : mountStore,
      m.requeueIfChanged k = Outcome.returned m2
        [Call.getMountObject e.cluster e.ref, Call.requeueWorkspace e.cluster w] ∧
      m2 = { m with mountTrackers :=
              (m.mountTrackers.insert k { e with lastSeenURL := u, lastSeenPhase := p }) } ∧
      m2.mountTrackers.lookup k = some { e with lastSeenURL := u, lastSeenPhase := p } ∧
      m2.requeueIfChanged k = Outcome.returned m2 [Call.getMountObject e.cluster e.ref] := by
  have hd : u ≠ e.lastSeenURL ∨ p ≠ e.lastSeenPhase := by
    by_contra hcon
    push_neg at hcon
    exact hdiff (by rw [hcon.1, hcon.2])
  have hfirst := requeueIfChanged_of_changed hget hrq hk href hw hne hfetch herr hst hu hp hd
  rw [hok] at hfirst
  refine ⟨_, by rw [hfirst, hkey], rfl, AList.lookup_insert _, ?_⟩
  have hne2 : ({ e with lastSeenURL := u, lastSeenPhase := p } : mountStoreEntry).Empty = false := by
    simpa [mountStoreEntry.Empty] using hne
  exact requeueIfChanged_of_same (e := { e with lastSeenURL := u, lastSeenPhase := p })
    hget (AList.lookup_insert _) hne2 hfetch herr hst hu hp

/-- Witness for C1: stored URL "A", phase "Pending"; fetched URL "B", phase "Pending". -/
theorem requeueIfChanged_requeues_once_witness :
    ∃ m2 : mountStore,
      (sampleStore (fixedHook none)
          (fixedAccessor (some (statusObject "B" "Pending")) none)).requeueIfChanged
          (key sampleEntry.cluster sampleRef)
        = Outcome.returned m2
          [Call.getMountObject sampleEntry.cluster sampleEntry.ref,
           Call.requeueWorkspace sampleEntry.cluster sampleWorkspace] ∧
      m2 = { sampleStore (fixedHook none) (fixedAccessor (some (statusObject "B" "Pending")) none)
              with mountTrackers :=
                ((sampleStore (fixedHook none)
                    (fixedAccessor (some (statusObject "B" "Pending")) none)).mountTrackers.insert
                  (key sampleEntry.cluster sampleRef)
                  { sampleEntry with lastSeenURL := "B", lastSeenPhase := "Pending" }) } ∧
      m2.mountTrackers.lookup (key sampleEntry.cluster sampleRef)
        = some { sampleEntry with lastSeenURL := "B", lastSeenPhase := "Pending" } ∧
      m2.requeueIfChanged (key sampleEntry.cluster sampleRef)
        = Outcome.returned m2 [Call.getMountObject sampleEntry.cluster sampleEntry.ref] :=
  requeueIfChanged_requeues_once
    (sampleStore (fixedHook none) (fixedAccessor (some (statusObject "B" "Pending")) none))
    (key sampleEntry.cluster sampleRef) sampleEntry sampleRef sampleWorkspace
    (fixedAccessor (some (statusObject "B" "Pending")) none) (fixedHook none)
    (statusObject "B" "Pending") none
    [("URL", Value.string "B"), ("phase", Value.string "Pending")] "B" "Pending"
    rfl rfl (sampleStore_lookup _ _) rfl rfl sampleEntry_not_Empty rfl rfl rfl rfl rfl rfl
    (by decide) rfl

/-- C2: a tracked non-empty entry, a fetch whose status differs from the snapshot, and a hook that
returns an error: the drift check calls the accessor and the hook once and returns the store
exactly as it was; run again with the same fetch, whatever the hook answers then, it makes the
same two calls with the same arguments. -/
theorem requeueIfChanged_hook_failure (m : mountStore) (k : String) (e : mountStoreEntry)
    (r : ObjectReference) (w : Workspace) (get : MountAccessor) (rq : RequeueHook)
    (obj : Unstructured) (err : Option Error) (status : List (String × Value)) (u p : String)
    (failure : Error)
    (hget : m.getMountObject = some get) (hrq : m.requeueWorkspace = some rq)
    (hk : m.mountTrackers.lookup k = some e)
    (href : e.ref = some r) (hw : e.workspace = some w) (hne : e.Empty = false)
    (hfetch : get e.cluster e.ref = (some obj, err)) (herr : isNotFoundErr err = false)
    (hst : obj.Object.lookup "status" = some (Value.object status))
    (hu : status.lookup "URL" = some (Value.string u))
    (hp : status.lookup "phase" = some (Value.string p))
    (hdiff : u ≠ e.lastSeenURL ∨ p ≠ e.lastSeenPhase)
    (hfail : rq e.cluster w = some failure) :
    m.requeueIfChanged k = Outcome.returned m
        [Call.getMountObject e.cluster e.ref, Call.requeueWorkspace e.cluster w] ∧
      ∀ rq2 : RequeueHook,
        (({ m with requeueWorkspace := some rq2 } : mountStore).requeueIfChanged k).calls
          = [Call.getMountObject e.cluster e.ref, Call.requeueWorkspace e.cluster w] := by
  constructor
  · have h := requeueIfChanged_of_changed hget hrq hk href hw hne hfetch herr hst hu hp hdiff
    rw [hfail] at h
    exact h
  · intro rq2
    have hrq2 : ({ m with requeueWorkspace := some rq2 } : mountStore).requeueWorkspace
        = some rq2 := rfl
    have h := requeueIfChanged_of_changed
      (m := { m with requeueWorkspace := some rq2 })
      hget hrq2 hk href hw hne hfetch herr hst hu hp hdiff
    rw [h]
    cases rq2 e.cluster w <;> rfl

/-- Witness for C2: stored URL "A", fetched URL "B", and a hook that always fails. -/
theorem requeueIfChanged_hook_failure_witness :
    (sampleStore (fixedHook (some ⟨"queue closed", false⟩))
        (fixedAccessor (some (statusObject "B" "Pending")) none)).requeueIfChanged
        (key sampleEntry.cluster sampleRef)
      = Outcome.returned
          (sampleStore (fixedHook (some ⟨"queue closed", false⟩))
            (fixedAccessor (some (statusObject "B" "Pending")) none))
          [Call.getMountObject sampleEntry.cluster sampleEntry.ref,
           Call.requeueWorkspace sampleEntry.cluster sampleWorkspace] :=
  (requeueIfChanged_hook_failure
    (sampleStore (fixedHook (some ⟨"queue closed", false⟩))
      (fixedAccessor (some (statusObject "B" "Pending")) none))
    (key sampleEntry.cluster sampleRef) sampleEntry sampleRef sampleWorkspace
    (fixedAccessor (some (statusObject "B" "Pending")) none)
    (fixedHook (some ⟨"queue closed", false⟩))
    (statusObject "B" "Pending") none
    [("URL", Value.string "B"), ("phase", Value.string "Pending")] "B" "Pending"
    ⟨"queue closed", false⟩
    rfl rfl (sampleStore_lookup _ _) rfl rfl sampleEntry_not_Empty rfl rfl rfl rfl rfl
    (Or.inl (by decide)) rfl).1

/-! ## Tracker store: registration -/

/-- C3, as stated, fails in two ways. With the empty cluster the first `add` stores an entry that
is itself empty, so the second `add` replaces it and the stored workspace is the second call's.
With a non-empty entry already under the key, both calls change nothing and the stored workspace
is the earlier one, not the first call's. -/
theorem add_twice_not_first_value :
    (∃ m1 m2 : mountStore,
      newMountsTrackerStore.add ⟨""⟩ (some sampleRef) (some sampleWorkspace) = some m1 ∧
      m1.add ⟨""⟩ (some sampleRef) (some otherWorkspace) = some m2 ∧
      (m1.get (key ⟨""⟩ sampleRef)).workspace = some sampleWorkspace ∧
      (m2.get (key ⟨""⟩ sampleRef)).workspace = some otherWorkspace ∧
      some otherWorkspace ≠ some sampleWorkspace) ∧
    (∃ m1 m2 : mountStore,
      (sampleStore (fixedHook none) (fixedAccessor none none)).add sampleEntry.cluster
        (some sampleRef) (some otherWorkspace) = some m1 ∧
      m1.add sampleEntry.cluster (some sampleRef) (some otherWorkspace) = some m2 ∧
      (m2.get (key sampleEntry.cluster sampleRef)).workspace = some sampleWorkspace ∧
      some sampleWorkspace ≠ some otherWorkspace) := by
  refine ⟨⟨_, _, rfl, rfl, rfl, rfl, by decide⟩, ⟨_, _, rfl, rfl, rfl, by decide⟩⟩

/-- C3, amended: for a non-empty cluster, a reference and a non-nil workspace `ws1`, the first `add`
returns a store on which a second `add` of the same coordinates with any workspace changes
nothing; that store holds exactly one entry under the key; if the slot was absent or empty
before, the entry is the fresh one with workspace `ws1`, and otherwise the store is the one
before the first call. -/
theorem add_idempotent (m : mountStore) (c : Path) (r : ObjectReference) (ws1 : Workspace)
    (w2 : Option Workspace) (hc : c.String ≠ "") :
    ∃ m1 : mountStore,
      m.add c (some r) (some ws1) = some m1 ∧
      m1.add c (some r) w2 = some m1 ∧
      m1.mountTrackers.keys.count (key c r) = 1 ∧
      ((m.get (key c r)).Empty = true →
        m1.mountTrackers.lookup (key c r)
          = some { cluster := c, ref := some r, workspace := some ws1,
                   lastSeenURL := "", lastSeenPhase := "" }) ∧
      ((m.get (key c r)).Empty = false → m1 = m) := by
  cases hE : (m.get (key c r)).Empty with
  | true =>
    have hnew : (⟨c, some r, some ws1, "", ""⟩ : mountStoreEntry).Empty = false := by
      simp [mountStoreEntry.Empty, hc]
    have hlook : (m.mountTrackers.insert (key c r)
        (⟨c, some r, some ws1, "", ""⟩ : mountStoreEntry)).lookup (key c r)
          = some ⟨c, some r, some ws1, "", ""⟩ := AList.lookup_insert _
    refine ⟨⟨m.mountTrackers.insert (key c r) ⟨c, some r, some ws1, "", ""⟩, m.initOnce,
      m.initDone, m.requeueWorkspace, m.getMountObject⟩, ?_, ?_, ?_, ?_, ?_⟩
    · simp [mountStore.add, hE]
    · have hget := get_of_lookup (m := ⟨m.mountTrackers.insert (key c r)
        ⟨c, some r, some ws1, "", ""⟩, m.initOnce, m.initDone, m.requeueWorkspace,
        m.getMountObject⟩) hlook
      simp only [mountStore.add, hget, hnew]
      rfl
    · apply List.count_eq_one_of_mem (AList.keys_nodup _)
      rw [← AList.mem_keys, AList.mem_insert]
      exact Or.inl rfl
    · intro _
      exact hlook
    · intro h
      exact absurd h (by simp)
  | false =>
    refine ⟨m, ?_, ?_, ?_, ?_, ?_⟩
    · simp [mountStore.add, hE]
    · simp [mountStore.add, hE]
    · apply List.count_eq_one_of_mem (AList.keys_nodup _)
      rw [← AList.mem_keys, ← AList.lookup_isSome]
      cases hl : m.mountTrackers.lookup (key c r) with
      | none =>
        rw [get_of_lookup_none hl, zero_Empty] at hE
        exact absurd hE (by simp)
      | some e => rfl
    · intro h
      exact absurd h (by simp)
    · intro _
      rfl

/-- Witness for C3, amended: two registrations of the sample coordinates on a fresh store. -/
theorem add_idempotent_witness :
    ∃ m1 : mountStore,
      newMountsTrackerStore.add ⟨"root:org"⟩ (some sampleRef) (some sampleWorkspace) = some m1 ∧
      m1.add ⟨"root:org"⟩ (some sampleRef) (some otherWorkspace) = some m1 ∧
      m1.mountTrackers.keys.count (key ⟨"root:org"⟩ sampleRef) = 1 ∧
      ((newMountsTrackerStore.get (key ⟨"root:org"⟩ sampleRef)).Empty = true →
        m1.mountTrackers.lookup (key ⟨"root:org"⟩ sampleRef)
          = some { cluster := ⟨"root:org"⟩, ref := some sampleRef, workspace := some sampleWorkspace,
                   lastSeenURL := "", lastSeenPhase := "" }) ∧
      ((newMountsTrackerStore.get (key ⟨"root:org"⟩ sampleRef)).Empty = false →
        m1 = newMountsTrackerStore) :=
  add_idempotent newMountsTrackerStore ⟨"root:org"⟩ sampleRef sampleWorkspace (some otherWorkspace)
    (by decide)

/-! ## Dynamic resource router: correlation to the owning workspace -/

/-- C9: for a well-formed composite key under which the informer cache holds an object that
carries the marker annotation with value "true" and an owner annotation decoding to kind
"Workspace", `processGVK` returns a nil error and, after the informer request and the lookup,
adds exactly one key to the workspace queue: the cluster-aware key of the object's cluster, the
empty namespace and the owner's name. -/
theorem processGVK_enqueues_owner (d : Deps) (c : Controller) (key gvrPart objKey : String)
    (gvr : GroupVersionResource) (inf : Informer) (u : Unstructured)
    (annotations : List (String × String)) (ownerRaw : String) (owner : OwnerReference)
    (hsplit : SplitN key "::" 2 = [gvrPart, objKey])
    (hgvr : ParseResourceArg gvrPart = some gvr)
    (hinf : c.ForResource gvr = Except.ok inf)
    (hfound : inf.GetByKey objKey = { item := CachedItem.unstructured u, found := true, err := none })
    (hann : d.GetAnnotations u = some annotations)
    (hmark : annotations.lookup d.ExperimentalIsMountAnnotationKey = some "true")
    (hown : annotations.lookup d.ExperimentalWorkspaceOwnerAnnotationKey = some ownerRaw)
    (hdec : d.jsonUnmarshal ownerRaw = Except.ok owner)
    (hkind : owner.Kind = "Workspace") :
    c.processGVK d key =
      { err := none
        effects := [Effect.forResource gvr, Effect.getByKey gvr objKey,
          Effect.queueAdd (d.ToClusterAwareKey (d.logicalclusterFrom u) "" owner.Name)] } := by
  simp [Controller.processGVK, hsplit, hgvr, hinf, hfound, hann, hmark, hown, hdec, hkind,
    WorkspaceKind]

/-- Witness for C9: owner of kind "Workspace" and name "w1", object in cluster "root:org". -/
theorem processGVK_enqueues_owner_witness :
    (sampleController (sampleMountObject "true")).processGVK sampleDeps
        "kubeclusters.v1alpha1.targets.contrib.kcp.io::root:org|default/proxy" =
      { err := none
        effects := [Effect.forResource sampleGVR,
          Effect.getByKey sampleGVR "root:org|default/proxy",
          Effect.queueAdd "root:org|w1"] } :=
  processGVK_enqueues_owner sampleDeps (sampleController (sampleMountObject "true"))
    "kubeclusters.v1alpha1.targets.contrib.kcp.io::root:org|default/proxy"
    "kubeclusters.v1alpha1.targets.contrib.kcp.io" "root:org|default/proxy" sampleGVR
    { GetByKey := fun k =>
        if k = "root:org|default/proxy" then
          { item := CachedItem.unstructured (sampleMountObject "true"), found := true, err := none }
        else { item := CachedItem.other "<nil>", found := false, err := none } }
    (sampleMountObject "true")
    [("kcp.io/cluster", "root:org"),
     ("experimental.tenancy.kcp.io/is-mount", "true"),
     ("experimental.tenancy.kcp.io/owner", "\x7b\"kind\":\"Workspace\",\"name\":\"w1\"\x7d")]
    "\x7b\"kind\":\"Workspace\",\"name\":\"w1\"\x7d"
    { APIVersion := "", Kind := "Workspace", Name := "w1", UID := "",
      Controller := none, BlockOwnerDeletion := none }
    (by decide) (by decide) rfl rfl rfl rfl rfl rfl rfl

/-- C10: for a well-formed composite key under which the informer cache holds an object whose
annotations are nil, or lack the marker annotation, or hold it with a value other than "true",
`processGVK` returns a nil error and adds nothing to the workspace queue: its only effects are the
informer request and the lookup, whatever the other annotations are. -/
theorem processGVK_ignores_unmarked (d : Deps) (c : Controller) (key gvrPart objKey : String)
    (gvr : GroupVersionResource) (inf : Informer) (u : Unstructured)
    (hsplit : SplitN key "::" 2 = [gvrPart, objKey])
    (hgvr : ParseResourceArg gvrPart = some gvr)
    (hinf : c.ForResource gvr = Except.ok inf)
    (hfound : inf.GetByKey objKey = { item := CachedItem.unstructured u, found := true, err := none })
    (hmark : ∀ annotations, d.GetAnnotations u = some annotations →
      annotations.lookup d.ExperimentalIsMountAnnotationKey ≠ some "true") :
    c.processGVK d key =
      { err := none, effects := [Effect.forResource gvr, Effect.getByKey gvr objKey] } := by
  cases hann : d.GetAnnotations u with
  | none => simp [Controller.processGVK, hsplit, hgvr, hinf, hfound, hann]
  | some annotations =>
    have h := hmark annotations hann
    simp [Controller.processGVK, hsplit, hgvr, hinf, hfound, hann, h]

/-- Witness for C10: marker value "True", with a valid workspace owner annotation beside it. -/
theorem processGVK_ignores_unmarked_witness :
    (sampleController (sampleMountObject "True")).processGVK sampleDeps
        "kubeclusters.v1alpha1.targets.contrib.kcp.io::root:org|default/proxy" =
      { err := none
        effects := [Effect.forResource sampleGVR,
          Effect.getByKey sampleGVR "root:org|default/proxy"] } :=
  processGVK_ignores_unmarked sampleDeps (sampleController (sampleMountObject "True"))
    "kubeclusters.v1alpha1.targets.contrib.kcp.io::root:org|default/proxy"
    "kubeclusters.v1alpha1.targets.contrib.kcp.io" "root:org|default/proxy" sampleGVR
    { GetByKey := fun k =>
        if k = "root:org|default/proxy" then
          { item := CachedItem.unstructured (sampleMountObject "True"), found := true, err := none }
        else { item := CachedItem.other "<nil>", found := false, err := none } }
    (sampleMountObject "True")
    (by decide) (by decide) rfl rfl
    (by
      intro annotations h
      have h2 : annotations =
          [("kcp.io/cluster", "root:org"),
           ("experimental.tenancy.kcp.io/is-mount", "True"),
           ("experimental.tenancy.kcp.io/owner",
              "\x7b\"kind\":\"Workspace\",\"name\":\"w1\"\x7d")] :=
        (Option.some.inj h).symm
      rw [h2]
      decide)

/-! ## Dynamic resource router: malformed keys and owner errors -/

theorem cutFirst_eq_none_of_not_infix (sep : List Char) :
    ∀ s : List Char, ¬ sep <:+: s → cutFirst sep s = none
  | [], _ => rfl
  | c :: cs, h => by
    have hpre : sep.isPrefixOf (c :: cs) = false := by
      cases hp : sep.isPrefixOf (c :: cs) with
      | false => rfl
      | true => exact absurd (List.isPrefixOf_iff_prefix.mp hp).isInfix h
    have htail : ¬ sep <:+: cs := fun hin => h (hin.trans (List.suffix_cons c cs).isInfix)
    simp [cutFirst, hpre, cutFirst_eq_none_of_not_infix sep cs htail]

theorem SplitN_two_of_not_infix (key sep : String) (h : ¬ sep.data <:+: key.data) :
    SplitN key sep 2 = [key] := by
  simp [SplitN, splitNChars, cutFirst_eq_none_of_not_infix _ _ h]

theorem processGVK_effects_not_onGvrQueue (d : Deps) (c : Controller) (key : String) :
    (c.processGVK d key).effects.filter Effect.onGvrQueue = [] := by
  unfold Controller.processGVK
  split
  · split
    · rfl
    · split
      · rfl
      · dsimp only
        split_ifs
        · rfl
        · rfl
        · split
          · rfl
          · split
            · rfl
            · split_ifs
              · rfl
              · split
                · rfl
                · split
                  · rfl
                  · split_ifs <;> rfl
  · rfl

/-- C11: a composite key that holds no "::", or whose part before the first "::" does not parse
as a resource, is dropped by `processGVK`: nil error and no effect at all (no informer request,
no lookup, no queue add). -/
theorem processGVK_drops_malformed (d : Deps) (c : Controller) (key : String)
    (h : ¬ "::".data <:+: key.data ∨
      ∃ gvrPart objKey, SplitN key "::" 2 = [gvrPart, objKey] ∧ ParseResourceArg gvrPart = none) :
    c.processGVK d key = { err := none, effects := [] } := by
  rcases h with h | ⟨gvrPart, objKey, hsplit, hgvr⟩
  · simp [Controller.processGVK, SplitN_two_of_not_infix key "::" h]
  · simp [Controller.processGVK, hsplit, hgvr]

/-- Witness for C11: the selector "foo.bar" has one dot only. -/
theorem processGVK_drops_malformed_witness :
    (sampleController (sampleMountObject "true")).processGVK sampleDeps "foo.bar::ns/baz"
      = { err := none, effects := [] } :=
  processGVK_drops_malformed sampleDeps (sampleController (sampleMountObject "true"))
    "foo.bar::ns/baz" (Or.inr ⟨"foo.bar", "ns/baz", by decide, by decide⟩)

/-- C15: for a cached object marked "true" that carries an owner annotation, a decode failure of
the owner annotation, and a decoded owner whose kind is not the workspace kind, each make
`processGVK` return an error, with the informer request and the lookup as its only effects. -/
theorem processGVK_owner_error (d : Deps) (c : Controller) (key gvrPart objKey : String)
    (gvr : GroupVersionResource) (inf : Informer) (u : Unstructured)
    (annotations : List (String × String)) (ownerRaw : String)
    (hsplit : SplitN key "::" 2 = [gvrPart, objKey])
    (hgvr : ParseResourceArg gvrPart = some gvr)
    (hinf : c.ForResource gvr = Except.ok inf)
    (hfound : inf.GetByKey objKey = { item := CachedItem.unstructured u, found := true, err := none })
    (hann : d.GetAnnotations u = some annotations)
    (hmark : annotations.lookup d.ExperimentalIsMountAnnotationKey = some "true")
    (hown : annotations.lookup d.ExperimentalWorkspaceOwnerAnnotationKey = some ownerRaw) :
    (∀ cause, d.jsonUnmarshal ownerRaw = Except.error cause →
      c.processGVK d key =
        { err := some (ProcessError.unmarshalOwner cause)
          effects := [Effect.forResource gvr, Effect.getByKey gvr objKey] }) ∧
    (∀ owner, d.jsonUnmarshal ownerRaw = Except.ok owner → owner.Kind ≠ WorkspaceKind →
      c.processGVK d key =
        { err := some (ProcessError.ownerNotWorkspace owner.Kind)
          effects := [Effect.forResource gvr, Effect.getByKey gvr objKey] }) := by
  constructor
  · intro cause hdec
    simp [Controller.processGVK, hsplit, hgvr, hinf, hfound, hann, hmark, hown, hdec]
  · intro owner hdec hkind
    simp [Controller.processGVK, hsplit, hgvr, hinf, hfound, hann, hmark, hown, hdec, hkind]

/-- Witness for C15: a marked object whose owner annotation is the text "not json". -/
theorem processGVK_owner_error_witness :
    (sampleController sampleBadOwnerObject).processGVK sampleDeps
        "kubeclusters.v1alpha1.targets.contrib.kcp.io::root:org|default/proxy" =
      { err := some (ProcessError.unmarshalOwner "invalid character")
        effects := [Effect.forResource sampleGVR,
          Effect.getByKey sampleGVR "root:org|default/proxy"] } :=
  (processGVK_owner_error sampleDeps (sampleController sampleBadOwnerObject)
    "kubeclusters.v1alpha1.targets.contrib.kcp.io::root:org|default/proxy"
    "kubeclusters.v1alpha1.targets.contrib.kcp.io" "root:org|default/proxy" sampleGVR
    { GetByKey := fun k =>
        if k = "root:org|default/proxy" then
          { item := CachedItem.unstructured sampleBadOwnerObject, found := true, err := none }
        else { item := CachedItem.other "<nil>", found := false, err := none } }
    sampleBadOwnerObject
    [("kcp.io/cluster", "root:org"),
     ("experimental.tenancy.kcp.io/is-mount", "true"),
     ("experimental.tenancy.kcp.io/owner", "not json")]
    "not json"
    (by decide) (by decide) rfl rfl rfl rfl rfl).1 "invalid character" rfl

/-! ## Dynamic resource router: the worker step -/

/-- C12: when the queue signals shutdown the worker step returns false with no effect. Otherwise
it returns true, and after the effects of `processGVK` its operations on the resource queue are
exactly two, in this order: on an error the rate-limited re-add of the key and `Done` of the key;
on success `Forget` of the key and `Done` of the key. -/
theorem processNextGVKWorkItem_step (d : Deps) (c : Controller) (k : String) :
    c.processNextGVKWorkItem d k true = (false, []) ∧
    (c.processNextGVKWorkItem d k false).1 = true ∧
    ((c.processGVK d k).err ≠ none →
      (c.processNextGVKWorkItem d k false).2
          = (c.processGVK d k).effects ++
              [Effect.gvrQueueAddRateLimited k, Effect.gvrQueueDone k] ∧
        (c.processNextGVKWorkItem d k false).2.filter Effect.onGvrQueue
          = [Effect.gvrQueueAddRateLimited k, Effect.gvrQueueDone k]) ∧
    ((c.processGVK d k).err = none →
      (c.processNextGVKWorkItem d k false).2
          = (c.processGVK d k).effects ++ [Effect.gvrQueueForget k, Effect.gvrQueueDone k] ∧
        (c.processNextGVKWorkItem d k false).2.filter Effect.onGvrQueue
          = [Effect.gvrQueueForget k, Effect.gvrQueueDone k]) := by
  have hq := processGVK_effects_not_onGvrQueue d c k
  refine ⟨rfl, ?_, ?_, ?_⟩
  · cases herr : (c.processGVK d k).err <;> simp [Controller.processNextGVKWorkItem, herr]
  · intro hne
    cases herr : (c.processGVK d k).err with
    | none => exact absurd herr hne
    | some e =>
      simp [Controller.processNextGVKWorkItem, herr, List.filter_append, hq, Effect.onGvrQueue]
  · intro herr
    simp [Controller.processNextGVKWorkItem, herr, List.filter_append, hq, Effect.onGvrQueue]

/-- C14, as stated, fails on its second half: for a marked object whose owner annotation is not
JSON, `processGVK` returns the decode error and the worker step re-adds the key rate-limited. -/
theorem processNextGVKWorkItem_retries_bad_owner_json :
    (sampleController sampleBadOwnerObject).processNextGVKWorkItem sampleDeps
        "kubeclusters.v1alpha1.targets.contrib.kcp.io::root:org|default/proxy" false =
      (true,
        [Effect.forResource sampleGVR,
         Effect.getByKey sampleGVR "root:org|default/proxy",
         Effect.gvrQueueAddRateLimited
           "kubeclusters.v1alpha1.targets.contrib.kcp.io::root:org|default/proxy",
         Effect.gvrQueueDone
           "kubeclusters.v1alpha1.targets.contrib.kcp.io::root:org|default/proxy"]) := by
  decide

/-- C14, amended: a malformed key is dropped by one worker step, whose only effects are `Forget`
and `Done` of the key; a cached object marked "true" whose owner annotation fails to decode is
retried, the step ending with the rate-limited re-add and `Done` of the key. -/
theorem processNextGVKWorkItem_malformed_input (d : Deps) (c : Controller) (key : String) :
    ((¬ "::".data <:+: key.data ∨
        ∃ gvrPart objKey, SplitN key "::" 2 = [gvrPart, objKey] ∧
          ParseResourceArg gvrPart = none) →
      c.processNextGVKWorkItem d key false
        = (true, [Effect.gvrQueueForget key, Effect.gvrQueueDone key])) ∧
    (∀ gvrPart objKey gvr inf u annotations ownerRaw cause,
      SplitN key "::" 2 = [gvrPart, objKey] →
      ParseResourceArg gvrPart = some gvr →
      c.ForResource gvr = Except.ok inf →
      inf.GetByKey objKey = { item := CachedItem.unstructured u, found := true, err := none } →
      d.GetAnnotations u = some annotations →
      annotations.lookup d.ExperimentalIsMountAnnotationKey = some "true" →
      annotations.lookup d.ExperimentalWorkspaceOwnerAnnotationKey = some ownerRaw →
      d.jsonUnmarshal ownerRaw = Except.error cause →
      c.processNextGVKWorkItem d key false
        = (true, [Effect.forResource gvr, Effect.getByKey gvr objKey,
            Effect.gvrQueueAddRateLimited key, Effect.gvrQueueDone key])) := by
  constructor
  · rintro (h | ⟨gvrPart, objKey, hsplit, hgvr⟩)
    · simp [Controller.processNextGVKWorkItem, Controller.processGVK,
        SplitN_two_of_not_infix key "::" h]
    · simp [Controller.processNextGVKWorkItem, Controller.processGVK, hsplit, hgvr]
  · intro gvrPart objKey gvr inf u annotations ownerRaw cause hsplit hgvr hinf hfound hann hmark
      hown hdec
    simp [Controller.processNextGVKWorkItem, Controller.processGVK, hsplit, hgvr, hinf, hfound,
      hann, hmark, hown, hdec]

/-- Witness for C14, amended: the key "foo.bar::ns/baz", whose selector has one dot only. -/
theorem processNextGVKWorkItem_malformed_input_witness :
    (sampleController (sampleMountObject "true")).processNextGVKWorkItem sampleDeps
        "foo.bar::ns/baz" false
      = (true, [Effect.gvrQueueForget "foo.bar::ns/baz", Effect.gvrQueueDone "foo.bar::ns/baz"]) :=
  (processNextGVKWorkItem_malformed_input sampleDeps
    (sampleController (sampleMountObject "true")) "foo.bar::ns/baz").1
    (Or.inr ⟨"foo.bar", "ns/baz", by decide, by decide⟩)

/-- C17, as stated, fails: the selector "foo.v1.bar" parses as resource "foo", version "v1",
group "bar", so `processGVK` asks for that informer and looks up "ns/baz"; when the cache holds
there a marked object owned by a workspace, a workspace key is added to the queue, and when the
resource has no informer, an error is returned. -/
theorem processGVK_foo_v1_bar_not_dropped :
    ParseResourceArg "foo.v1.bar" = some { Group := "bar", Version := "v1", Resource := "foo" } ∧
    (singleObjectController { Group := "bar", Version := "v1", Resource := "foo" } "ns/baz"
        (sampleMountObject "true")).processGVK sampleDeps "foo.v1.bar::ns/baz" =
      { err := none
        effects := [Effect.forResource { Group := "bar", Version := "v1", Resource := "foo" },
          Effect.getByKey { Group := "bar", Version := "v1", Resource := "foo" } "ns/baz",
          Effect.queueAdd "root:org|w1"] } ∧
    (sampleController (sampleMountObject "true")).processGVK sampleDeps "foo.v1.bar::ns/baz" =
      { err := some (ProcessError.informer { Group := "bar", Version := "v1", Resource := "foo" }
          "no matches for resource")
        effects := [Effect.forResource { Group := "bar", Version := "v1", Resource := "foo" }] } := by
  refine ⟨by decide, by decide, by decide⟩

/-- C17, amended: on the key "foo.v1.bar::ns/baz" `processGVK` asks for the informer of resource
"foo", version "v1", group "bar" and looks up "ns/baz"; if the informer is there and the lookup
finds nothing, it returns a nil error with no queue add. A selector with fewer than two dots is
the unparseable one: the key "foo.bar::ns/baz" is dropped with no effect, whatever the cache
holds. -/
theorem processGVK_foo_keys (d : Deps) (c : Controller) :
    (∀ inf, c.ForResource { Group := "bar", Version := "v1", Resource := "foo" } = Except.ok inf →
      (inf.GetByKey "ns/baz").err = none → (inf.GetByKey "ns/baz").found = false →
      c.processGVK d "foo.v1.bar::ns/baz" =
        { err := none
          effects := [Effect.forResource { Group := "bar", Version := "v1", Resource := "foo" },
            Effect.getByKey { Group := "bar", Version := "v1", Resource := "foo" } "ns/baz"] }) ∧
    c.processGVK d "foo.bar::ns/baz" = { err := none, effects := [] } := by
  have hsplit : SplitN "foo.v1.bar::ns/baz" "::" 2 = ["foo.v1.bar", "ns/baz"] := by decide
  have hgvr : ParseResourceArg "foo.v1.bar"
      = some { Group := "bar", Version := "v1", Resource := "foo" } := by decide
  have hsplit2 : SplitN "foo.bar::ns/baz" "::" 2 = ["foo.bar", "ns/baz"] := by decide
  have hgvr2 : ParseResourceArg "foo.bar" = none := by decide
  constructor
  · intro inf hinf herr hfound
    simp [Controller.processGVK, hsplit, hgvr, hinf, herr, hfound]
  · simp [Controller.processGVK, hsplit2, hgvr2]

/-- Witness for C17, amended: the sample cache for resource "foo.v1.bar" holds nothing under
"ns/baz". -/
theorem processGVK_foo_keys_witness :
    (singleObjectController { Group := "bar", Version := "v1", Resource := "foo" } "ns/other"
        (sampleMountObject "true")).processGVK sampleDeps "foo.v1.bar::ns/baz" =
      { err := none
        effects := [Effect.forResource { Group := "bar", Version := "v1", Resource := "foo" },
          Effect.getByKey { Group := "bar", Version := "v1", Resource := "foo" } "ns/baz"] } :=
  (processGVK_foo_keys sampleDeps
    (singleObjectController { Group := "bar", Version := "v1", Resource := "foo" } "ns/other"
      (sampleMountObject "true"))).1
    { GetByKey := fun k =>
        if k = "ns/other" then
          { item := CachedItem.unstructured (sampleMountObject "true"), found := true, err := none }
        else { item := CachedItem.other "<nil>", found := false, err := none } }
    rfl rfl rfl

/-- Witness for C12: a marked object whose owner annotation does not decode; `processGVK`
returns an error. -/
theorem processNextGVKWorkItem_step_witness :
    ((sampleController sampleBadOwnerObject).processNextGVKWorkItem sampleDeps
        "kubeclusters.v1alpha1.targets.contrib.kcp.io::root:org|default/proxy" false).2.filter
        Effect.onGvrQueue
      = [Effect.gvrQueueAddRateLimited
           "kubeclusters.v1alpha1.targets.contrib.kcp.io::root:org|default/proxy",
         Effect.gvrQueueDone
           "kubeclusters.v1alpha1.targets.contrib.kcp.io::root:org|default/proxy"] :=
  ((processNextGVKWorkItem_step sampleDeps (sampleController sampleBadOwnerObject)
    "kubeclusters.v1alpha1.targets.contrib.kcp.io::root:org|default/proxy").2.2.1
    (by decide)).2

/-! ## Composite keys: encoding and decoding -/

theorem cutFirst_append_sep (c : Char) (rest post : List Char) :
    ∀ pre : List Char, c ∉ pre →
      cutFirst (c :: rest) (pre ++ (c :: rest) ++ post) = some (pre, post)
  | [], _ => by
    have hp : (c :: rest).isPrefixOf (c :: (rest ++ post)) = true :=
      List.isPrefixOf_iff_prefix.mpr ⟨post, rfl⟩
    simp [cutFirst, hp]
  | x :: xs, h => by
    have hx : x ≠ c := fun hxc => h (by simp [hxc])
    have hxs : c ∉ xs := fun hin => h (List.mem_cons_of_mem _ hin)
    have ih := cutFirst_append_sep c rest post xs hxs
    have hp : (c :: rest).isPrefixOf (x :: (xs ++ c :: (rest ++ post))) = false := by
      simp [List.isPrefixOf, Ne.symm hx]
    simp only [List.cons_append, List.append_assoc] at ih ⊢
    simp [cutFirst, hp, ih]

theorem SplitN_two_append (pre post : String) (h : ':' ∉ pre.data) :
    SplitN (pre ++ "::" ++ post) "::" 2 = [pre, post] := by
  have hdata : (pre ++ "::" ++ post).data = pre.data ++ (':' :: [':']) ++ post.data := by
    simp [String.data_append]
  have hsep : ("::" : String).data = ':' :: [':'] := rfl
  simp only [SplitN, hdata, hsep, splitNChars, cutFirst_append_sep ':' [':'] post.data pre.data h]
  simp

theorem ParseResourceArg_join (gvr : GroupVersionResource)
    (hr : '.' ∉ gvr.Resource.data) (hv : '.' ∉ gvr.Version.data) :
    ParseResourceArg (gvr.Resource ++ "." ++ gvr.Version ++ "." ++ gvr.Group) = some gvr := by
  have hdata : (gvr.Resource ++ "." ++ gvr.Version ++ "." ++ gvr.Group).data
      = gvr.Resource.data ++ ('.' :: []) ++ (gvr.Version.data ++ ('.' :: []) ++ gvr.Group.data) := by
    simp [String.data_append]
  have hsep : (".": String).data = '.' :: [] := rfl
  have hcount : 2 ≤ countDots (gvr.Resource ++ "." ++ gvr.Version ++ "." ++ gvr.Group) := by
    simp only [countDots, hdata, List.count_append, List.count_cons_self, List.count_nil]
    omega
  have hsplit : SplitN (gvr.Resource ++ "." ++ gvr.Version ++ "." ++ gvr.Group) "." 3
      = [gvr.Resource, gvr.Version, gvr.Group] := by
    simp only [SplitN, hdata, hsep, splitNChars,
      cutFirst_append_sep '.' [] _ gvr.Resource.data hr,
      cutFirst_append_sep '.' [] gvr.Group.data gvr.Version.data hv]
    simp
  simp [ParseResourceArg, hcount, hsplit]

/-- C18: for a resource whose resource and version hold no "." and whose three fields hold no
":", and an object whose key function gives `s`, `enqueueForResource` adds to the resource queue
the key resource "." version "." group "::" `s`; the split of that key at "::" gives the selector
and `s`, the selector parses back to the same group, version and resource, and `processGVK` on
that key asks for the informer of that resource and, when it gets one, looks up `s`. -/
theorem composite_key_round_trip (keyFunc : CachedItem → Except String String)
    (gvr : GroupVersionResource) (obj : CachedItem) (s : String)
    (hkey : keyFunc obj = Except.ok s)
    (hr : '.' ∉ gvr.Resource.data) (hv : '.' ∉ gvr.Version.data)
    (hcr : ':' ∉ gvr.Resource.data) (hcv : ':' ∉ gvr.Version.data) (hcg : ':' ∉ gvr.Group.data) :
    enqueueForResource keyFunc gvr obj
        = [Effect.gvrQueueAdd
            (gvr.Resource ++ "." ++ gvr.Version ++ "." ++ gvr.Group ++ "::" ++ s)] ∧
      SplitN (gvr.Resource ++ "." ++ gvr.Version ++ "." ++ gvr.Group ++ "::" ++ s) "::" 2
        = [gvr.Resource ++ "." ++ gvr.Version ++ "." ++ gvr.Group, s] ∧
      ParseResourceArg (gvr.Resource ++ "." ++ gvr.Version ++ "." ++ gvr.Group) = some gvr ∧
      ∀ (d : Deps) (c : Controller),
        (c.processGVK d
            (gvr.Resource ++ "." ++ gvr.Version ++ "." ++ gvr.Group ++ "::" ++ s)).effects.head?
          = some (Effect.forResource gvr) ∧
        ∀ inf, c.ForResource gvr = Except.ok inf →
          (c.processGVK d
              (gvr.Resource ++ "." ++ gvr.Version ++ "." ++ gvr.Group ++ "::" ++ s)).effects.take 2
            = [Effect.forResource gvr, Effect.getByKey gvr s] := by
  have hpre : ':' ∉ (gvr.Resource ++ "." ++ gvr.Version ++ "." ++ gvr.Group).data := by
    simp [String.data_append, hcr, hcv, hcg]
  have hsplit := SplitN_two_append (gvr.Resource ++ "." ++ gvr.Version ++ "." ++ gvr.Group) s hpre
  have hparse := ParseResourceArg_join gvr hr hv
  refine ⟨?_, hsplit, hparse, ?_⟩
  · simp [enqueueForResource, hkey, String.intercalate, String.intercalate.go]
  · intro d c
    constructor
    · unfold Controller.processGVK
      simp only [hsplit, hparse]
      cases hinf : c.ForResource gvr with
      | error e => rfl
      | ok inf =>
        dsimp only
        split_ifs
        · rfl
        · rfl
        · split
          · rfl
          · split
            · rfl
            · split_ifs
              · rfl
              · split
                · rfl
                · split
                  · rfl
                  · split_ifs <;> rfl
    · intro inf hinf
      unfold Controller.processGVK
      simp only [hsplit, hparse, hinf]
      split_ifs
      · rfl
      · rfl
      · split
        · rfl
        · split
          · rfl
          · split_ifs
            · rfl
            · split
              · rfl
              · split
                · rfl
                · split_ifs <;> rfl

/-- Witness for C18: the sample resource and the object key "root:org|default/proxy". -/
theorem composite_key_round_trip_witness :
    SplitN (sampleGVR.Resource ++ "." ++ sampleGVR.Version ++ "." ++ sampleGVR.Group ++ "::" ++
        "root:org|default/proxy") "::" 2
      = [sampleGVR.Resource ++ "." ++ sampleGVR.Version ++ "." ++ sampleGVR.Group,
         "root:org|default/proxy"] :=
  (composite_key_round_trip (fun _ => Except.ok "root:org|default/proxy") sampleGVR
    (CachedItem.unstructured (sampleMountObject "true")) "root:org|default/proxy" rfl
    (by decide) (by decide) (by decide) (by decide) (by decide)).2.1

/-! ## Registry keys -/

theorem append_sep_inj_left {α : Type} {c : α} {b1 b2 : List α} :
    ∀ {a1 a2 : List α}, c ∉ a1 → c ∉ a2 → a1 ++ c :: b1 = a2 ++ c :: b2 → a1 = a2 ∧ b1 = b2
  | [], [], _, _, h => ⟨rfl, by simpa using h⟩
  | [], y :: ys, _, h2, h => by
    have hy : c = y := by simpa using (List.cons.inj h).1
    exact absurd (by simp [hy]) h2
  | x :: xs, [], h1, _, h => by
    have hx : x = c := by simpa using (List.cons.inj h).1
    exact absurd (by simp [hx]) h1
  | x :: xs, y :: ys, h1, h2, h => by
    have hxy : x = y := (List.cons.inj h).1
    have htail : xs ++ c :: b1 = ys ++ c :: b2 := (List.cons.inj h).2
    have ih := append_sep_inj_left (fun hin => h1 (List.mem_cons_of_mem _ hin))
      (fun hin => h2 (List.mem_cons_of_mem _ hin)) htail
    exact ⟨by rw [hxy, ih.1], ih.2⟩

theorem append_sep_inj_right {α : Type} {c : α} {a1 a2 b1 b2 : List α}
    (h1 : c ∉ b1) (h2 : c ∉ b2) (h : a1 ++ c :: b1 = a2 ++ c :: b2) : a1 = a2 ∧ b1 = b2 := by
  have hrev : b1.reverse ++ c :: a1.reverse = b2.reverse ++ c :: a2.reverse := by
    have := congrArg List.reverse h
    simpa using this
  have hres := append_sep_inj_left (by simpa using h1) (by simpa using h2) hrev
  exact ⟨List.reverse_injective hres.2, List.reverse_injective hres.1⟩

theorem key_data (c : Path) (r : ObjectReference) :
    (key c r).data = c.String.data ++ '/' :: (r.Kind.data ++ '/' ::
      (r.APIVersion.data ++ '/' :: (r.Namespace.data ++ '/' :: r.Name.data))) := by
  have hsep : ("/" : String).data = ['/'] := rfl
  simp [key, String.data_append, hsep]

/-- C20: for two cluster and reference pairs whose cluster, kind, namespace and name hold no "/"
(the apiVersion may), equal keys force equal clusters, kinds, apiVersions, namespaces and names. -/
theorem key_injective (c1 c2 : Path) (r1 r2 : ObjectReference)
    (hc1 : '/' ∉ c1.String.data) (hc2 : '/' ∉ c2.String.data)
    (hk1 : '/' ∉ r1.Kind.data) (hk2 : '/' ∉ r2.Kind.data)
    (hn1 : '/' ∉ r1.Namespace.data) (hn2 : '/' ∉ r2.Namespace.data)
    (hm1 : '/' ∉ r1.Name.data) (hm2 : '/' ∉ r2.Name.data)
    (h : key c1 r1 = key c2 r2) :
    c1 = c2 ∧ r1.Kind = r2.Kind ∧ r1.APIVersion = r2.APIVersion ∧
      r1.Namespace = r2.Namespace ∧ r1.Name = r2.Name := by
  have hd : (key c1 r1).data = (key c2 r2).data := by rw [h]
  rw [key_data, key_data] at hd
  obtain ⟨hc, hd⟩ := append_sep_inj_left hc1 hc2 hd
  obtain ⟨hk, hd⟩ := append_sep_inj_left hk1 hk2 hd
  have hd2 : (r1.APIVersion.data ++ '/' :: r1.Namespace.data) ++ '/' :: r1.Name.data
      = (r2.APIVersion.data ++ '/' :: r2.Namespace.data) ++ '/' :: r2.Name.data := by
    simpa using hd
  obtain ⟨hd3, hm⟩ := append_sep_inj_right hm1 hm2 hd2
  obtain ⟨ha, hn⟩ := append_sep_inj_right hn1 hn2 hd3
  refine ⟨?_, String.ext hk, String.ext ha, String.ext hn, String.ext hm⟩
  cases c1
  cases c2
  simp only [Path.String] at hc
  rw [String.ext hc]

/-- Witness for C20: the sample reference and a copy of it with another UID have equal keys. -/
theorem key_injective_witness :
    (⟨"root:org"⟩ : Path) = ⟨"root:org"⟩ ∧
      ({ sampleRef with UID := "0a1b" } : ObjectReference).Kind = sampleRef.Kind ∧
      ({ sampleRef with UID := "0a1b" } : ObjectReference).APIVersion = sampleRef.APIVersion ∧
      ({ sampleRef with UID := "0a1b" } : ObjectReference).Namespace = sampleRef.Namespace ∧
      ({ sampleRef with UID := "0a1b" } : ObjectReference).Name = sampleRef.Name :=
  key_injective ⟨"root:org"⟩ ⟨"root:org"⟩ { sampleRef with UID := "0a1b" } sampleRef
    (by decide) (by decide) (by decide) (by decide) (by decide) (by decide) (by decide)
    (by decide) rfl

/-! ## Store operations: what a drift check may write -/

theorem requeueIfChanged_returned_cases {m m2 : mountStore} {k : String} {calls : List Call}
    (h : m.requeueIfChanged k = Outcome.returned m2 calls) :
    m2 = m ∨ m2 = m.remove k ∨
      ∃ r e2, m2 = { m with mountTrackers :=
            (m.mountTrackers.insert (key (m.get k).cluster r) e2) } ∧
          e2.cluster = (m.get k).cluster ∧ e2.ref = some r ∧ (m.get k).ref = some r := by
  unfold mountStore.requeueIfChanged at h
  simp only [mountStore.updateEntry] at h
  repeat' (split at h)
  all_goals first
    | exact Outcome.noConfusion h
    | (injection h with h1 h2; subst h1; exact Or.inl rfl)
    | (injection h with h1 h2; subst h1; exact Or.inr (Or.inl rfl))
    | skip
  all_goals
    injection h with h1 h2
    subst h1
    rename_i hup
    cases href : (m.get k).ref with
    | none =>
      rw [href] at hup
      exact absurd hup (by simp)
    | some r =>
      rw [href] at hup
      exact Or.inr (Or.inr ⟨r, _, (Option.some.inj hup).symm, rfl, rfl, rfl⟩)

theorem add_cases {m m2 : mountStore} {c : Path} {ref : Option ObjectReference}
    {w : Option Workspace} (h : m.add c ref w = some m2) :
    m2 = m ∨ ∃ r, ref = some r ∧
      m2 = { m with mountTrackers := (m.mountTrackers.insert (key c r) ⟨c, some r, w, "", ""⟩) } := by
  cases ref with
  | none => simp [mountStore.add] at h
  | some r =>
    simp only [mountStore.add] at h
    split at h
    · exact Or.inr ⟨r, rfl, (Option.some.inj h).symm⟩
    · exact Or.inl (Option.some.inj h).symm

theorem SameBinding_apply (m : mountStore) (op : Op) (h : op.isInit = false ∨ m.initOnce = true) :
    SameBinding m (m.apply op) := by
  cases op with
  | init rq get =>
    rcases h with h | h
    · simp [Op.isInit] at h
    · simp [mountStore.apply, mountStore.init, h, SameBinding]
  | add c ref w =>
    cases hadd : m.add c ref w with
    | none => simp [mountStore.apply, hadd, SameBinding]
    | some m2 =>
      rcases add_cases hadd with h2 | ⟨r, _, h2⟩ <;>
        simp [mountStore.apply, hadd, h2, SameBinding]
  | remove k => simp [mountStore.apply, mountStore.remove, SameBinding]
  | requeueIfChanged k =>
    cases hrun : m.requeueIfChanged k with
    | panicked calls => simp [mountStore.apply, hrun, SameBinding]
    | returned m2 calls =>
      rcases requeueIfChanged_returned_cases hrun with h2 | h2 | ⟨r, e2, h2, _⟩ <;>
        simp [mountStore.apply, hrun, h2, SameBinding, mountStore.remove]

theorem SameBinding_runOps :
    ∀ (ops : List Op) (m : mountStore),
      ((∀ op ∈ ops, op.isInit = false) ∨ m.initOnce = true) → SameBinding m (runOps m ops)
  | [], m, _ => ⟨rfl, rfl, rfl, rfl⟩
  | op :: ops, m, h => by
    have hop : op.isInit = false ∨ m.initOnce = true :=
      h.imp (fun hall => hall op (List.mem_cons_self _ _)) id
    have h1 := SameBinding_apply m op hop
    have hrest : (∀ o ∈ ops, o.isInit = false) ∨ (m.apply op).initOnce = true :=
      h.imp (fun hall o ho => hall o (List.mem_cons_of_mem _ ho)) (fun hm => by rw [h1.1, hm])
    have h2 := SameBinding_runOps ops (m.apply op) hrest
    exact ⟨h2.1.trans h1.1, h2.2.1.trans h1.2.1, h2.2.2.1.trans h1.2.2.1,
      h2.2.2.2.trans h1.2.2.2⟩

/-- C16: on a store whose one-shot flag is unset, `init` binds the hook and the accessor and sets
the readiness flag; a second `init` returns the store unchanged, and after any further
operations, `init` calls among them, the hook, the accessor and the flag are still those of the
first call. No `init` changes the tracked entries, and from a new store the readiness flag stays
unset through any operations that hold no `init`. -/
theorem init_binds_once (m : mountStore) (r1 r2 : RequeueHook) (g1 g2 : MountAccessor)
    (h : m.initOnce = false) :
    (m.init r1 g1).requeueWorkspace = some r1 ∧
      (m.init r1 g1).getMountObject = some g1 ∧
      (m.init r1 g1).initDone = true ∧
      (m.init r1 g1).init r2 g2 = m.init r1 g1 ∧
      (∀ ops : List Op,
        (runOps (m.init r1 g1) ops).requeueWorkspace = some r1 ∧
          (runOps (m.init r1 g1) ops).getMountObject = some g1 ∧
          (runOps (m.init r1 g1) ops).initDone = true) ∧
      (m.init r1 g1).mountTrackers = m.mountTrackers ∧
      ((m.init r1 g1).init r2 g2).mountTrackers = m.mountTrackers ∧
      newMountsTrackerStore.initDone = false ∧
      (∀ ops : List Op, (∀ op ∈ ops, op.isInit = false) →
        (runOps newMountsTrackerStore ops).initDone = false) := by
  have hr : (m.init r1 g1).requeueWorkspace = some r1 := by simp [mountStore.init, h]
  have hg : (m.init r1 g1).getMountObject = some g1 := by simp [mountStore.init, h]
  have hd : (m.init r1 g1).initDone = true := by simp [mountStore.init, h]
  have ho : (m.init r1 g1).initOnce = true := by simp [mountStore.init, h]
  have ht : (m.init r1 g1).mountTrackers = m.mountTrackers := by simp [mountStore.init, h]
  have h2 : (m.init r1 g1).init r2 g2 = m.init r1 g1 := by
    rw [mountStore.init, if_pos ho]
  refine ⟨hr, hg, hd, h2, ?_, ht, by rw [h2, ht], rfl, ?_⟩
  · intro ops
    have hs := SameBinding_runOps ops (m.init r1 g1) (Or.inr ho)
    exact ⟨hs.2.2.1.trans hr, hs.2.2.2.trans hg, hs.2.1.trans hd⟩
  · intro ops hops
    exact (SameBinding_runOps ops newMountsTrackerStore (Or.inl hops)).2.1

/-- Witness for C16: two `init` calls on a new store. -/
theorem init_binds_once_witness :
    (newMountsTrackerStore.init (fixedHook none) (fixedAccessor none none)).init
        (fixedHook (some ⟨"late", false⟩)) (fixedAccessor none (some ⟨"late", true⟩))
      = newMountsTrackerStore.init (fixedHook none) (fixedAccessor none none) :=
  (init_binds_once newMountsTrackerStore (fixedHook none) (fixedHook (some ⟨"late", false⟩))
    (fixedAccessor none none) (fixedAccessor none (some ⟨"late", true⟩)) rfl).2.2.2.1

/-! ## The registry key invariant -/

theorem KeyInvariant_new : KeyInvariant newMountsTrackerStore := by
  intro k e h
  simp [newMountsTrackerStore] at h

theorem KeyInvariant_of_trackers {m m2 : mountStore} (h : m2.mountTrackers = m.mountTrackers)
    (hm : KeyInvariant m) : KeyInvariant m2 := by
  intro k e hk
  rw [h] at hk
  exact hm k e hk

theorem KeyInvariant_insert {m : mountStore} (hm : KeyInvariant m) (e : mountStoreEntry)
    (r : ObjectReference) (c : Path) (hc : e.cluster = c) (hr : e.ref = some r) :
    KeyInvariant { m with mountTrackers := (m.mountTrackers.insert (key c r) e) } := by
  intro k e2 hk
  by_cases hkk : k = key c r
  · subst hkk
    have h2 : e2 = e := by
      have h3 : (m.mountTrackers.insert (key c r) e).lookup (key c r) = some e :=
        AList.lookup_insert _
      exact Option.some.inj (hk.symm.trans h3)
    rw [h2]
    exact ⟨r, hr, by rw [hc]⟩
  · have h3 : (m.mountTrackers.insert (key c r) e).lookup k = m.mountTrackers.lookup k :=
      AList.lookup_insert_ne hkk
    exact hm k e2 (h3.symm.trans hk)

theorem KeyInvariant_remove {m : mountStore} (hm : KeyInvariant m) (k : String) :
    KeyInvariant (m.remove k) := by
  intro k2 e hk
  by_cases hkk : k2 = k
  · subst hkk
    have h3 : (m.mountTrackers.erase k2).lookup k2 = none := AList.lookup_erase k2 _
    exact absurd (hk.symm.trans h3) (by simp)
  · have h3 : (m.mountTrackers.erase k).lookup k2 = m.mountTrackers.lookup k2 :=
      AList.lookup_erase_ne hkk
    exact hm k2 e (h3.symm.trans hk)

theorem KeyInvariant_requeueIfChanged {m m2 : mountStore} {k : String} {calls : List Call}
    (hm : KeyInvariant m) (h : m.requeueIfChanged k = Outcome.returned m2 calls) :
    KeyInvariant m2 := by
  rcases requeueIfChanged_returned_cases h with h2 | h2 | ⟨r, e2, h2, hc, hr, _⟩
  · rw [h2]
    exact hm
  · rw [h2]
    exact KeyInvariant_remove hm k
  · rw [h2]
    exact KeyInvariant_insert hm e2 r _ hc hr

theorem KeyInvariant_apply {m : mountStore} (hm : KeyInvariant m) (op : Op) :
    KeyInvariant (m.apply op) := by
  cases op with
  | init rq get =>
    refine KeyInvariant_of_trackers ?_ hm
    simp only [mountStore.apply, mountStore.init]
    split <;> rfl
  | add c ref w =>
    cases hadd : m.add c ref w with
    | none => simpa [mountStore.apply, hadd] using hm
    | some m2 =>
      have hgoal : m.apply (Op.add c ref w) = m2 := by simp [mountStore.apply, hadd]
      rw [hgoal]
      rcases add_cases hadd with h2 | ⟨r, _, h2⟩
      · rw [h2]
        exact hm
      · rw [h2]
        exact KeyInvariant_insert hm _ r c rfl rfl
  | remove k => exact KeyInvariant_remove hm k
  | requeueIfChanged k =>
    cases hrun : m.requeueIfChanged k with
    | panicked calls => simpa [mountStore.apply, hrun] using hm
    | returned m2 calls =>
      have hgoal : m.apply (Op.requeueIfChanged k) = m2 := by simp [mountStore.apply, hrun]
      rw [hgoal]
      exact KeyInvariant_requeueIfChanged hm hrun

theorem KeyInvariant_runOps :
    ∀ (ops : List Op) (m : mountStore), KeyInvariant m → KeyInvariant (runOps m ops)
  | [], _, hm => hm
  | op :: ops, m, hm => KeyInvariant_runOps ops (m.apply op) (KeyInvariant_apply hm op)

/-- C19: every store reached from the new store by `init`, `add`, `remove` and `requeueIfChanged`
operations keeps each entry under the key of its own cluster and reference; every single
operation preserves that, whatever the collaborators answer; and on a store with that property
a `requeueIfChanged` of key `k` leaves the entry of every other key as it was. -/
theorem registry_key_invariant :
    (∀ ops : List Op, KeyInvariant (runOps newMountsTrackerStore ops)) ∧
    (∀ (m : mountStore) (op : Op), KeyInvariant m → KeyInvariant (m.apply op)) ∧
    (∀ (m m2 : mountStore) (k : String) (calls : List Call), KeyInvariant m →
      m.requeueIfChanged k = Outcome.returned m2 calls →
      ∀ k2, k2 ≠ k → m2.mountTrackers.lookup k2 = m.mountTrackers.lookup k2) := by
  refine ⟨fun ops => KeyInvariant_runOps ops _ KeyInvariant_new,
    fun m op hm => KeyInvariant_apply hm op, ?_⟩
  intro m m2 k calls hm hrun k2 hk2
  rcases requeueIfChanged_returned_cases hrun with h2 | h2 | ⟨r, e2, h2, _, _, href⟩
  · rw [h2]
  · rw [h2]
    exact AList.lookup_erase_ne hk2
  · have hkey : key (m.get k).cluster r = k := by
      cases hl : m.mountTrackers.lookup k with
      | none =>
        rw [get_of_lookup_none hl] at href
        simp [mountStoreEntry.zero] at href
      | some e =>
        rw [get_of_lookup hl] at href ⊢
        obtain ⟨r2, hr2, hk⟩ := hm k e hl
        have hrr : r2 = r := Option.some.inj (hr2.symm.trans href)
        rw [hk, hrr]
    rw [h2, hkey]
    exact AList.lookup_insert_ne hk2

/-- Witness for C19: a store built by `init` and `add`, a drift check on the registered key with
a changed status, and the lookup of another key. -/
theorem registry_key_invariant_witness :
    ((runOps newMountsTrackerStore
        [Op.init (fixedHook none) (fixedAccessor (some (statusObject "B" "Pending")) none),
         Op.add ⟨"root:org"⟩ (some sampleRef) (some sampleWorkspace)]).apply
        (Op.requeueIfChanged (key ⟨"root:org"⟩ sampleRef))).mountTrackers.lookup "other"
      = (runOps newMountsTrackerStore
        [Op.init (fixedHook none) (fixedAccessor (some (statusObject "B" "Pending")) none),
         Op.add ⟨"root:org"⟩ (some sampleRef) (some sampleWorkspace)]).mountTrackers.lookup
          "other" :=
  registry_key_invariant.2.2
    (runOps newMountsTrackerStore
      [Op.init (fixedHook none) (fixedAccessor (some (statusObject "B" "Pending")) none),
       Op.add ⟨"root:org"⟩ (some sampleRef) (some sampleWorkspace)])
    ((runOps newMountsTrackerStore
      [Op.init (fixedHook none) (fixedAccessor (some (statusObject "B" "Pending")) none),
       Op.add ⟨"root:org"⟩ (some sampleRef) (some sampleWorkspace)]).apply
      (Op.requeueIfChanged (key ⟨"root:org"⟩ sampleRef)))
    (key ⟨"root:org"⟩ sampleRef)
    [Call.getMountObject ⟨"root:org"⟩ (some sampleRef),
     Call.requeueWorkspace ⟨"root:org"⟩ sampleWorkspace]
    (registry_key_invariant.1 _) rfl "other" (by decide)

/-! ## Dynamic watch manager: one reconcile step -/

theorem withAnnotations_getD (ws : Workspace) :
    ws.withAnnotations.Annotations.getD [] = ws.Annotations.getD [] := by
  cases h : ws.Annotations <;> simp [Workspace.withAnnotations, h]

/-- One `reconcile` step when the mount, if any, has its reference: without the mount annotation
it returns continue and a nil error with no call of `setupGVKInformer`; with an annotation whose
parse returns an error it returns stop-and-requeue and that error, again with no call; with an
annotation that parses to a mount whose reference is present it calls `setupGVKInformer` once,
with the group, version and kind of the reference, and returns stop-and-requeue with the error of
the call, or continue and a nil error when the call succeeds. -/
theorem reconcile_cases (d : ReconcileDeps) (r : gvkInformersReconciler) (ws : Workspace) :
    ((ws.Annotations.getD []).lookup d.ExperimentalWorkspaceMountAnnotationKey = none →
      r.reconcile d ws
        = ReconcileOutcome.returned reconcileStatus.reconcileStatusContinue none []
            ws.withAnnotations) ∧
    (∀ v mount err,
      (ws.Annotations.getD []).lookup d.ExperimentalWorkspaceMountAnnotationKey = some v →
      d.ParseTenancyMountAnnotation v = (mount, some err) →
      r.reconcile d ws
        = ReconcileOutcome.returned reconcileStatus.reconcileStatusStopAndRequeue (some err) []
            ws.withAnnotations) ∧
    (∀ v mount ref,
      (ws.Annotations.getD []).lookup d.ExperimentalWorkspaceMountAnnotationKey = some v →
      d.ParseTenancyMountAnnotation v = (some mount, none) →
      mount.MountSpec.Reference = some ref →
      (∀ err, r.setupGVKInformer (d.GroupVersionKind ref) = some err →
        r.reconcile d ws
          = ReconcileOutcome.returned reconcileStatus.reconcileStatusStopAndRequeue (some err)
              [d.GroupVersionKind ref] ws.withAnnotations) ∧
      (r.setupGVKInformer (d.GroupVersionKind ref) = none →
        r.reconcile d ws
          = ReconcileOutcome.returned reconcileStatus.reconcileStatusContinue none
              [d.GroupVersionKind ref] ws.withAnnotations)) := by
  refine ⟨?_, ?_, ?_⟩
  · intro h
    simp [gvkInformersReconciler.reconcile, withAnnotations_getD, h]
  · intro v mount err h hparse
    simp [gvkInformersReconciler.reconcile, withAnnotations_getD, h, hparse]
  · intro v mount ref h hparse href
    constructor
    · intro err hset
      simp [gvkInformersReconciler.reconcile, withAnnotations_getD, h, hparse, href, hset]
    · intro hset
      simp [gvkInformersReconciler.reconcile, withAnnotations_getD, h, hparse, href, hset]

/-- A sample of `reconcile_cases`: a mount annotation that parses, and a watch setup that fails. -/
theorem reconcile_cases_witness :
    (fixedReconciler (some ⟨"no matches for kind", false⟩)).reconcile sampleReconcileDeps
        (mountedWorkspace "sample-mount")
      = ReconcileOutcome.returned reconcileStatus.reconcileStatusStopAndRequeue
          (some ⟨"no matches for kind", false⟩)
          [{ Group := "targets.contrib.kcp.io", Version := "v1alpha1", Kind := "KubeCluster" }]
          (mountedWorkspace "sample-mount") :=
  ((reconcile_cases sampleReconcileDeps (fixedReconciler (some ⟨"no matches for kind", false⟩))
    (mountedWorkspace "sample-mount")).2.2 "sample-mount"
    { MountSpec := { Reference := some sampleRef } } sampleRef (by decide) (by decide) rfl).1
    ⟨"no matches for kind", false⟩ rfl

/-- C13: the behaviour of the code on a mount annotation that parses to a mount with no reference
(the text of an empty JSON object). `reconcile` neither returns a status nor calls
`setupGVKInformer`: it panics on the read of the group, version and kind through the nil
reference, whether the watch setup would succeed or fail. -/
theorem reconcile_nil_reference_panics :
    (fixedReconciler none).reconcile sampleReconcileDeps (mountedWorkspace "\x7b\x7d")
        = ReconcileOutcome.panicked [] (mountedWorkspace "\x7b\x7d") ∧
      (fixedReconciler (some ⟨"no matches for kind", false⟩)).reconcile sampleReconcileDeps
          (mountedWorkspace "\x7b\x7d")
        = ReconcileOutcome.panicked [] (mountedWorkspace "\x7b\x7d") := by
  constructor <;> decide

end workspacemounts
